import Mathlib

/-!
Shallow embedding of the assignment-conflict / partial-assignment
reconciliation engine of the Van-List fleet scheduling application
(`app/routes/assignments.py`, `app/models.py`, `app/schemas.py`).

Modelling conventions:
* Calendar dates are abstracted to `Nat` (only equality of dates matters to
  the engine).
* The relational store is a `DB` record of lists; SQLAlchemy `query(...).first()`
  becomes `List.find?`, `.all()` with a filter becomes `List.filter`, and
  autoincrement primary keys are modelled by an explicit `nextId` counter.
* `HTTPException` status codes are mapped to the error kinds of spec §7:
  404 → `notFound`, 400/422 → `validationError`, 409 → `conflict`.
* A route that raises before `db.commit()` leaves the store untouched
  (SQLAlchemy rolls the transaction back); accordingly an operation returns
  `Except ApiError (DB × _)` and an `.error` result carries no new state.
* `db.flush()` calls guarded by `try/except IntegrityError` are modelled as an
  explicit uniqueness re-check of the dirty rows (`rowConflicts`); the flushes
  in `create_assignment` and `update_assignment` are not modelled as failure
  points because the preceding conflict scans check exactly the same
  conditions the unique constraints would, so single-threaded they cannot
  raise.
* Python string manipulation in the fuzzy matcher (`strip`/`lower`/`split`/
  `startswith`) is modelled on `List Char` so that it evaluates by structural
  recursion.
-/

namespace VanList

/-- `vans` table row (`app/models.py`, class `Van`). -/
structure Van where
  id : Nat
  code : String
  description : Option String
  operational_status : Option String
  active : Bool
deriving DecidableEq, Repr

/-- `drivers` table row (`app/models.py`, class `Driver`). -/
structure Driver where
  id : Nat
  employee_id : String
  name : String
  active : Bool
deriving DecidableEq, Repr

/-- `daily_assignments` table row (`app/models.py`, class `DailyAssignment`). -/
structure DailyAssignment where
  id : Nat
  assignment_date : Nat
  van_id : Option Nat
  driver_id : Option Nat
  notes : Option String
deriving DecidableEq, Repr

/-- `driver_van_preassignments` table row (`app/models.py`,
class `DriverVanPreassignment`). -/
structure DriverVanPreassignment where
  id : Nat
  driver_id : Nat
  van_id : Nat
deriving DecidableEq, Repr

/-- The relational store, as seen by the assignment routes. -/
structure DB where
  vans : List Van
  drivers : List Driver
  assignments : List DailyAssignment
  preassignments : List DriverVanPreassignment
  nextId : Nat
deriving DecidableEq, Repr

/-- Typed failures surfaced to the HTTP layer (spec §7):
`notFound` ↔ status 404, `validationError` ↔ status 400/422,
`conflict` ↔ status 409. -/
inductive ApiError where
  | notFound (detail : String)
  | validationError (detail : String)
  | conflict (detail : String)
deriving DecidableEq, Repr

/-- Request body of the create and update endpoints
(`app/schemas.py`, `AssignmentCreate`), before pydantic validation. -/
structure AssignmentCreate where
  assignment_date : Nat
  van_id : Option Nat
  driver_id : Option Nat
  notes : Option String
deriving DecidableEq, Repr

/-- Pydantic model validator `AssignmentCreate.at_least_one`
(`app/schemas.py` lines 63-67): rejects a payload whose `van_id` and
`driver_id` are both null. FastAPI runs it before the route body. -/
def at_least_one (p : AssignmentCreate) : Except ApiError AssignmentCreate :=
  if p.van_id = none ∧ p.driver_id = none then
    .error (.validationError "At least one of van_id or driver_id must be provided")
  else
    .ok p

/-- Uniqueness re-check a `db.flush()` performs on one dirty row: SQLite
raises `IntegrityError` when another row (NULLs do not collide) shares
`(assignment_date, van_id)` or `(assignment_date, driver_id)` — constraints
`uq_date_van` / `uq_date_driver` of `app/models.py`. -/
def rowConflicts (rows : List DailyAssignment) (r : DailyAssignment) : Bool :=
  rows.any fun a =>
    a.id != r.id && a.assignment_date == r.assignment_date &&
      ((a.van_id == r.van_id && r.van_id.isSome) ||
       (a.driver_id == r.driver_id && r.driver_id.isSome))

/-- Van half of the create-path checks (`create_assignment` lines 57-74):
look the van up (404 when absent) and scan for an existing row with the same
`(assignment_date, van_id)` (409 when found). -/
def lookupVanChecked (db : DB) (p : AssignmentCreate) : Except ApiError Unit :=
  match p.van_id with
  | none => .ok ()
  | some vid =>
    match db.vans.find? (fun v => v.id == vid) with
    | none => .error (.notFound "Van not found")
    | some van =>
      if db.assignments.any
          (fun a => a.assignment_date == p.assignment_date && a.van_id == some vid) then
        .error (.conflict
          ("Van '" ++ van.code ++ "' is already assigned on " ++ toString p.assignment_date))
      else
        .ok ()

/-- Driver half of the create-path checks (`create_assignment` lines 76-93). -/
def lookupDriverChecked (db : DB) (p : AssignmentCreate) : Except ApiError Unit :=
  match p.driver_id with
  | none => .ok ()
  | some did =>
    match db.drivers.find? (fun d => d.id == did) with
    | none => .error (.notFound "Driver not found")
    | some driver =>
      if db.assignments.any
          (fun a => a.assignment_date == p.assignment_date && a.driver_id == some did) then
        .error (.conflict
          ("Driver '" ++ driver.name ++ "' already has an assignment on "
            ++ toString p.assignment_date))
      else
        .ok ()

/-- `POST /api/assignments` (`create_assignment`, lines 48-141), including
the pydantic validation of the body and the preassignment auto-fill of
lines 111-130.  The flush after insert cannot raise single-threaded (the two
scans above check exactly the unique constraints for the new row), and the
flush after auto-fill cannot either (the auto-fill runs only under a fresh
`(date, van)` scan), so neither is a failure point here. -/
def create_assignment (db : DB) (p : AssignmentCreate) :
    Except ApiError (DB × DailyAssignment) :=
  match at_least_one p with
  | .error e => .error e
  | .ok data =>
    match lookupVanChecked db data with
    | .error e => .error e
    | .ok _ =>
      match lookupDriverChecked db data with
      | .error e => .error e
      | .ok _ =>
        let row : DailyAssignment :=
          ⟨db.nextId, data.assignment_date, data.van_id, data.driver_id, data.notes⟩
        let rows1 := db.assignments ++ [row]
        -- Auto-assign van from preassignment if driver-only (lines 111-130)
        let (rows2, row2) :=
          match data.driver_id, data.van_id with
          | some did, none =>
            match db.preassignments.find? (fun pa => pa.driver_id == did) with
            | some pa =>
              if rows1.any (fun a =>
                  a.assignment_date == data.assignment_date &&
                    a.van_id == some pa.van_id) then
                (rows1, row)
              else
                let row' := { row with van_id := some pa.van_id }
                (rows1.map (fun a => if a.id == row.id then row' else a), row')
            | none => (rows1, row)
          | _, _ => (rows1, row)
        .ok ({ db with assignments := rows2, nextId := db.nextId + 1 }, row2)

/-- Shared tail of `update_assignment`: the overwrite of
date/van/driver/notes (source lines 189-192). -/
def update_write (db : DB) (assignment_id : Nat) (data : AssignmentCreate)
    (assignment : DailyAssignment) : Except ApiError (DB × DailyAssignment) :=
  let row' := { assignment with
    assignment_date := data.assignment_date,
    van_id := data.van_id,
    driver_id := data.driver_id,
    notes := data.notes }
  let rows' := db.assignments.map (fun a => if a.id == assignment_id then row' else a)
  .ok ({ db with assignments := rows' }, row')

/-- Driver-side conflict scan of `update_assignment` (source lines 172-187),
excluding the row's own id. -/
def update_driver_gate (db : DB) (assignment_id : Nat) (data : AssignmentCreate)
    (assignment : DailyAssignment) : Except ApiError (DB × DailyAssignment) :=
  match data.driver_id with
  | some did =>
    if db.assignments.any (fun a =>
        a.assignment_date == data.assignment_date && a.driver_id == some did &&
          a.id != assignment_id) then
      .error (.conflict
        ("Driver '" ++ (((db.drivers.find? (fun d => d.id == did)).map Driver.name).getD "")
          ++ "' already has an assignment on " ++ toString data.assignment_date))
    else
      update_write db assignment_id data assignment
  | none => update_write db assignment_id data assignment

/-- `PUT /api/assignments/{id}` (`update_assignment`, lines 144-204):
the body is again an `AssignmentCreate` so the same pydantic validator runs
first; conflict scans exclude the row's own id; then date, van, driver and
notes are overwritten wholesale.  The van/driver name lookups of the source's
conflict branches only build the message text (a conflicting row's foreign key
guarantees the record exists; `getD` stands in for that). -/
def update_assignment (db : DB) (assignment_id : Nat) (p : AssignmentCreate) :
    Except ApiError (DB × DailyAssignment) :=
  match at_least_one p with
  | .error e => .error e
  | .ok data =>
  match db.assignments.find? (fun a => a.id == assignment_id) with
  | none => .error (.notFound "Assignment not found")
  | some assignment =>
    match data.van_id with
    | some vid =>
      if db.assignments.any (fun a =>
          a.assignment_date == data.assignment_date && a.van_id == some vid &&
            a.id != assignment_id) then
        .error (.conflict
          ("Van '" ++ (((db.vans.find? (fun v => v.id == vid)).map Van.code).getD "")
            ++ "' is already assigned on " ++ toString data.assignment_date))
      else
        update_driver_gate db assignment_id data assignment
    | none => update_driver_gate db assignment_id data assignment

/-- Notes concatenation of the pair operation (source lines 255-263):
non-None, non-empty notes of the two rows joined with `"; "`; the driver
row's notes are kept unchanged when both are empty. -/
def mergedNotes (driver_asgn van_asgn : DailyAssignment) : Option String :=
  let notes_parts :=
    ([driver_asgn.notes, van_asgn.notes].filterMap id).filter (fun s => s ≠ "")
  if notes_parts.isEmpty then driver_asgn.notes
  else some (String.intercalate "; " notes_parts)

/-- The surviving row of the pair operation: the driver row carrying the van
row's van reference and the concatenated notes. -/
def pairMerge (driver_asgn van_asgn : DailyAssignment) : DailyAssignment :=
  { driver_asgn with
    van_id := van_asgn.van_id,
    notes := mergedNotes driver_asgn van_asgn }

/-- Row pipeline of the pair operation: `db.delete(van_asgn)` followed by
writing the merged row in place of the driver row (source lines 258-263). -/
def pairRows (db : DB) (driver_assignment_id van_assignment_id : Nat)
    (driver_asgn van_asgn : DailyAssignment) : List DailyAssignment :=
  (db.assignments.filter (fun a => a.id != van_assignment_id)).map
    (fun a => if a.id == driver_assignment_id then
      pairMerge driver_asgn van_asgn else a)

/-- `POST /api/assignments/pair` (`pair_assignments`, lines 226-277):
merge a driver-only row and a van-only row into one paired row.  The van-only
row is deleted, its van reference moves onto the driver row, non-empty notes
are joined with `"; "`; the guarded flush is the `rowConflicts` re-check. -/
def pair_assignments (db : DB) (driver_assignment_id van_assignment_id : Nat) :
    Except ApiError (DB × DailyAssignment) :=
  match db.assignments.find? (fun a => a.id == driver_assignment_id) with
  | none => .error (.notFound "Driver assignment not found")
  | some driver_asgn =>
    if driver_asgn.driver_id = none then
      .error (.validationError "Assignment has no driver")
    else if driver_asgn.van_id ≠ none then
      .error (.validationError "Driver assignment already has a van")
    else
      match db.assignments.find? (fun a => a.id == van_assignment_id) with
      | none => .error (.notFound "Van assignment not found")
      | some van_asgn =>
        if van_asgn.van_id = none then
          .error (.validationError "Assignment has no van")
        else if van_asgn.driver_id ≠ none then
          .error (.validationError "Van assignment already has a driver")
        else if driver_asgn.assignment_date ≠ van_asgn.assignment_date then
          .error (.validationError "Assignments must be on the same date")
        else if rowConflicts
            (pairRows db driver_assignment_id van_assignment_id driver_asgn van_asgn)
            (pairMerge driver_asgn van_asgn) then
          .error (.conflict "Conflict when pairing assignments")
        else
          .ok
            ({ db with
                assignments :=
                  pairRows db driver_assignment_id van_assignment_id
                    driver_asgn van_asgn },
              pairMerge driver_asgn van_asgn)

/-- The fresh van-only row the unpair operation inserts (source lines
294-300): same date and van, no driver, notes not copied. -/
def unpairVanOnly (db : DB) (assignment : DailyAssignment) : DailyAssignment :=
  ⟨db.nextId, assignment.assignment_date, assignment.van_id, none, none⟩

/-- The original row made driver-only (source line 303). -/
def unpairCleared (assignment : DailyAssignment) : DailyAssignment :=
  { assignment with van_id := (none : Option Nat) }

/-- Row pipeline of the unpair operation: the original row cleared in place
plus the inserted van-only row. -/
def unpairRows (db : DB) (assignment_id : Nat) (assignment : DailyAssignment) :
    List DailyAssignment :=
  (db.assignments.map (fun a => if a.id == assignment_id then
    unpairCleared assignment else a)) ++ [unpairVanOnly db assignment]

/-- `POST /api/assignments/{id}/unpair` (`unpair_assignment`, lines 280-322):
split a paired row into the original row made driver-only plus a fresh
van-only row (notes not copied).  Returns
`(driver_assignment_id, van_assignment_id)`. -/
def unpair_assignment (db : DB) (assignment_id : Nat) :
    Except ApiError (DB × Nat × Nat) :=
  match db.assignments.find? (fun a => a.id == assignment_id) with
  | none => .error (.notFound "Assignment not found")
  | some assignment =>
    if assignment.van_id = none ∨ assignment.driver_id = none then
      .error (.validationError "Assignment is not fully paired")
    else if rowConflicts (unpairRows db assignment_id assignment)
        (unpairVanOnly db assignment) ||
      rowConflicts (unpairRows db assignment_id assignment)
        (unpairCleared assignment) then
      .error (.conflict "Conflict when unpairing assignment")
    else
      .ok
        ({ db with
            assignments := unpairRows db assignment_id assignment,
            nextId := db.nextId + 1 },
          assignment_id, db.nextId)

/-! ### Fuzzy name matcher (`_fuzzy_match_driver`, lines 548-598) -/

/-- Python `str.lower()` on the underlying characters. -/
def lowerChars (s : String) : List Char := s.toList.map Char.toLower

/-- Python `str.strip()` on a character list. -/
def stripChars (l : List Char) : List Char :=
  ((l.dropWhile Char.isWhitespace).reverse.dropWhile Char.isWhitespace).reverse

/-- Python `name.strip().lower()` — the normalized form both sides of the
matcher are compared in. -/
def pyNorm (s : String) : List Char := stripChars (lowerChars s)

/-- Python `str.split()` with no separator: split on whitespace runs,
dropping empty tokens.  Tokens are kept as `List Char` so that everything
computes structurally. -/
def pySplit (l : List Char) : List (List Char) :=
  (l.foldr
    (fun c acc =>
      if c.isWhitespace then [] :: acc
      else
        match acc with
        | [] => [[c]]
        | t :: ts => (c :: t) :: ts)
    []).filter (fun t => !t.isEmpty)

/-- Python `a.startswith(b)` on tokens. -/
def pyStartsWith (a b : List Char) : Bool := b.isPrefixOf a

/-- `name.strip().lower().split()` for a driver record. -/
def driverTokens (d : Driver) : List (List Char) := pySplit (pyNorm d.name)

/-- Tier 1 (source lines 562-565): case-insensitive full-string equality. -/
def fuzzyTier1 (normalized : List Char) (drivers : List Driver) : Option Driver :=
  drivers.find? (fun d => pyNorm d.name == normalized)

/-- The tier-2 filter predicate (source lines 570-582): the candidate's last
token equals the input's last token exactly, and its first token equals, is a
prefix of, or extends the input's first token; drivers with no name tokens
are skipped. -/
def fuzzyTier2Keep (file_first file_last : List Char) (d : Driver) : Bool :=
  let ts := driverTokens d
  !ts.isEmpty && ts.getLastD [] == file_last &&
    (ts.headD [] == file_first || pyStartsWith (ts.headD []) file_first ||
      pyStartsWith file_first (ts.headD []))

/-- Tier 2 (source lines 567-585): last-name-exact + first-name-prefix,
returned only when exactly one candidate survives. -/
def fuzzyTier2 (file_first file_last : List Char) (drivers : List Driver) :
    Option Driver :=
  let candidates := drivers.filter (fuzzyTier2Keep file_first file_last)
  if candidates.length = 1 then candidates.head? else none

/-- Tier 3 (source lines 587-596): every input token must stand in a prefix
relation (either direction) with some token of the candidate's name; the
first candidate in pool order wins. -/
def fuzzyTier3 (file_tokens : List (List Char)) (drivers : List Driver) :
    Option Driver :=
  drivers.find? (fun d =>
    let db_tokens := driverTokens d
    file_tokens.all (fun ft =>
      db_tokens.any (fun dt => pyStartsWith dt ft || pyStartsWith ft dt)))

/-- `_fuzzy_match_driver` (lines 548-598): resolve an informal name against
the pool of still-unmatched drivers, three tiers in order, first hit wins. -/
def _fuzzy_match_driver (file_name : String) (drivers : List Driver) :
    Option Driver :=
  let normalized := pyNorm file_name
  let file_tokens := pySplit normalized
  if file_tokens.isEmpty then none
  else
    match fuzzyTier1 normalized drivers with
    | some d => some d
    | none =>
      match fuzzyTier2 (file_tokens.headD []) (file_tokens.getLastD []) drivers with
      | some d => some d
      | none => fuzzyTier3 file_tokens drivers

/-! ### Bulk reconciliation (`bulk_upload_drivers`, `_bulk_assign_by_name`,
`bulk_upload_vans`, lines 432-545 / 601-685 / 688-771).

Each endpoint first lets the file-extraction collaborator produce the batch of
candidate identifiers (employee ids, informal names, or van codes) and, in the
id/code paths, upserts the master tables via `import_service`; both steps are
outside the reconciliation engine, so the functions below take the post-import
tables inside `db` and the extracted identifier batch as inputs and perform
the per-date reconciliation loop. -/

/-- Driver ids already referenced by an assignment on `dt`
(`existing_ids`, lines 462-470). -/
def assignedDriverIds (rows : List DailyAssignment) (dt : Nat) : List Nat :=
  rows.filterMap (fun a => if a.assignment_date = dt then a.driver_id else none)

/-- Van ids already referenced by an assignment on `dt`
(`existing_van_ids`, lines 499-507). -/
def assignedVanIds (rows : List DailyAssignment) (dt : Nat) : List Nat :=
  rows.filterMap (fun a => if a.assignment_date = dt then a.van_id else none)

/-- `preassign_map.get(driver_id)` (lines 494-497): the standing driver→van
preference; `driver_id` is unique in the table, so the first hit is the map
entry. -/
def preassignedVan (pas : List DriverVanPreassignment) (did : Nat) : Option Nat :=
  (pas.find? (fun pa => pa.driver_id == did)).map (fun pa => pa.van_id)

/-- Loop state of the employee-id driver batch (lines 457-527): the session's
assignment rows, the id counter, the `created` / `skipped_assign` counters and
the batch-extended `existing_van_ids` set. -/
structure BulkDriverState where
  rows : List DailyAssignment
  nextId : Nat
  created : Nat
  skipped : Nat
  occupiedVans : List Nat
deriving DecidableEq, Repr

/-- One iteration of the employee-id driver loop (lines 509-527): unresolved
ids are dropped, already-assigned drivers are skipped, everyone else gets a
driver-only row that picks up the preassigned van exactly when that van is not
in the batch-extended occupied set (and then marks it occupied). -/
def bulkDriverStep (dt : Nat) (activeDrivers : List Driver)
    (preassigns : List DriverVanPreassignment) (existingIds : List Nat)
    (s : BulkDriverState) (eid : String) : BulkDriverState :=
  match activeDrivers.find? (fun d => d.employee_id == eid) with
  | none => s
  | some drv =>
    if drv.id ∈ existingIds then { s with skipped := s.skipped + 1 }
    else
      match preassignedVan preassigns drv.id with
      | some v =>
        if v ∉ s.occupiedVans then
          { rows := s.rows ++ [⟨s.nextId, dt, some v, some drv.id, none⟩],
            nextId := s.nextId + 1, created := s.created + 1, skipped := s.skipped,
            occupiedVans := v :: s.occupiedVans }
        else
          { s with rows := s.rows ++ [⟨s.nextId, dt, none, some drv.id, none⟩],
                   nextId := s.nextId + 1, created := s.created + 1 }
      | none =>
        { s with rows := s.rows ++ [⟨s.nextId, dt, none, some drv.id, none⟩],
                 nextId := s.nextId + 1, created := s.created + 1 }

/-- `POST /api/assignments/bulk-upload-drivers`, Schedule/Simple formats
(lines 432-545), reduced to its reconciliation loop over the extracted
employee ids.  Returns the new store plus `(created, skipped)`. -/
def bulk_upload_drivers (db : DB) (dt : Nat) (target_employee_ids : List String) :
    DB × Nat × Nat :=
  let activeDrivers := db.drivers.filter (fun d => d.active)
  let existingIds := assignedDriverIds db.assignments dt
  let s0 : BulkDriverState :=
    ⟨db.assignments, db.nextId, 0, 0, assignedVanIds db.assignments dt⟩
  let s1 := target_employee_ids.foldl
    (bulkDriverStep dt activeDrivers db.preassignments existingIds) s0
  ({ db with assignments := s1.rows, nextId := s1.nextId }, s1.created, s1.skipped)

/-- Loop state of the name-matching driver batch (lines 601-666); unlike the
employee-id loop this one also threads `existing_ids`, the set of drivers
matched so far, and the `not_found` name list. -/
structure BulkNameState where
  rows : List DailyAssignment
  nextId : Nat
  created : Nat
  skipped : Nat
  occupiedVans : List Nat
  existingIds : List Nat
  matchedDrivers : List Nat
  notFoundNames : List String
deriving DecidableEq, Repr

/-- One iteration of the name-matching loop (lines 638-666): fuzzy-match the
name against the not-yet-matched pool; unmatched names are collected, matched
drivers are marked, already-assigned drivers are skipped, and creations apply
the batch-local preassignment auto-fill. -/
def bulkNameStep (dt : Nat) (activeDrivers : List Driver)
    (preassigns : List DriverVanPreassignment)
    (s : BulkNameState) (name : String) : BulkNameState :=
  let available := activeDrivers.filter (fun d => !(s.matchedDrivers.contains d.id))
  match _fuzzy_match_driver name available with
  | none => { s with notFoundNames := s.notFoundNames ++ [name] }
  | some drv =>
    let s1 := { s with matchedDrivers := drv.id :: s.matchedDrivers }
    if drv.id ∈ s1.existingIds then { s1 with skipped := s1.skipped + 1 }
    else
      match preassignedVan preassigns drv.id with
      | some v =>
        if v ∉ s1.occupiedVans then
          { s1 with rows := s1.rows ++ [⟨s1.nextId, dt, some v, some drv.id, none⟩],
                    nextId := s1.nextId + 1, created := s1.created + 1,
                    occupiedVans := v :: s1.occupiedVans,
                    existingIds := drv.id :: s1.existingIds }
        else
          { s1 with rows := s1.rows ++ [⟨s1.nextId, dt, none, some drv.id, none⟩],
                    nextId := s1.nextId + 1, created := s1.created + 1,
                    existingIds := drv.id :: s1.existingIds }
      | none =>
        { s1 with rows := s1.rows ++ [⟨s1.nextId, dt, none, some drv.id, none⟩],
                  nextId := s1.nextId + 1, created := s1.created + 1,
                  existingIds := drv.id :: s1.existingIds }

/-- `_bulk_assign_by_name` (lines 601-685): the Driver Route variant.
Returns the new store plus `(created, skipped, not_found)`. -/
def _bulk_assign_by_name (db : DB) (dt : Nat) (names : List String) :
    DB × Nat × Nat × List String :=
  let activeDrivers := db.drivers.filter (fun d => d.active)
  let s0 : BulkNameState :=
    ⟨db.assignments, db.nextId, 0, 0, assignedVanIds db.assignments dt,
      assignedDriverIds db.assignments dt, [], []⟩
  let s1 := names.foldl (bulkNameStep dt activeDrivers db.preassignments) s0
  ({ db with assignments := s1.rows, nextId := s1.nextId },
    s1.created, s1.skipped, s1.notFoundNames)

/-- Loop state of the van batch (lines 699-753). -/
structure BulkVanState where
  rows : List DailyAssignment
  nextId : Nat
  created : Nat
  skipped : Nat
deriving DecidableEq, Repr

/-- One iteration of the van loop (lines 740-753): unresolved codes are
dropped silently, already-assigned vans are skipped, the rest get a van-only
row. -/
def bulkVanStep (dt : Nat) (activeVans : List Van) (existingIds : List Nat)
    (s : BulkVanState) (code : String) : BulkVanState :=
  match activeVans.find? (fun v => v.code == code) with
  | none => s
  | some van =>
    if van.id ∈ existingIds then { s with skipped := s.skipped + 1 }
    else
      { s with rows := s.rows ++ [⟨s.nextId, dt, some van.id, none, none⟩],
               nextId := s.nextId + 1, created := s.created + 1 }

/-- `POST /api/assignments/bulk-upload-vans` (lines 688-771), reduced to its
reconciliation loop over the extracted van codes. -/
def bulk_upload_vans (db : DB) (dt : Nat) (target_codes : List String) :
    DB × Nat × Nat :=
  let activeVans := db.vans.filter (fun v => v.active)
  let existingIds := assignedVanIds db.assignments dt
  let s0 : BulkVanState := ⟨db.assignments, db.nextId, 0, 0⟩
  let s1 := target_codes.foldl (bulkVanStep dt activeVans existingIds) s0
  ({ db with assignments := s1.rows, nextId := s1.nextId }, s1.created, s1.skipped)

/-! ### The uniqueness invariant (spec §3; constraints `uq_date_van`,
`uq_date_driver` of `app/models.py` lines 85-91) -/

/-- Two rows collide on a unique constraint: same date and a shared non-null
van reference or a shared non-null driver reference. -/
def conflictingPair (a b : DailyAssignment) : Prop :=
  a.assignment_date = b.assignment_date ∧
    ((a.van_id = b.van_id ∧ a.van_id ≠ none) ∨
     (a.driver_id = b.driver_id ∧ a.driver_id ≠ none))

/-- The table-level invariant: for a fixed date, at most one row references a
given van, and at most one a given driver. -/
def uniqueAssignments (rows : List DailyAssignment) : Prop :=
  rows.Pairwise (fun a b => ¬ conflictingPair a b)

instance (a b : DailyAssignment) : Decidable (conflictingPair a b) := by
  unfold conflictingPair
  infer_instance

instance (rows : List DailyAssignment) : Decidable (uniqueAssignments rows) := by
  unfold uniqueAssignments
  infer_instance

/-! ## Helper lemmas -/

/-- Filtering by a weaker predicate does not change the first hit of a
stronger one. -/
theorem find?_filter_of_imp {α : Type} (l : List α) (p q : α → Bool)
    (h : ∀ x, p x = true → q x = true) :
    (l.filter q).find? p = l.find? p := by
  induction l with
  | nil => rfl
  | cons x xs ih =>
    by_cases hq : q x = true
    · by_cases hp : p x = true <;>
        simp [List.filter_cons, hq, List.find?_cons, hp, ih]
    · have hp : p x = false := by
        cases hpx : p x
        · rfl
        · exact absurd (h x hpx) hq
      simp [List.filter_cons, hq, List.find?_cons, hp, ih]

/-- Replacing every row keyed `k` by `m` (itself keyed `k`) makes `m` the
first row found under key `k`, provided some row with key `k` existed. -/
theorem find?_map_replace (l : List DailyAssignment) (k : Nat) (m : DailyAssignment)
    (hm : m.id = k) :
    (l.map (fun r => if r.id == k then m else r)).find? (fun r => r.id == k) =
      if (l.find? (fun r => r.id == k)).isSome then some m else none := by
  induction l with
  | nil => rfl
  | cons x xs ih =>
    rw [List.map_cons]
    by_cases hx : x.id = k
    · rw [if_pos (beq_iff_eq.mpr hx)]
      rw [List.find?_cons_of_pos (p := fun r : DailyAssignment => r.id == k) _
        (beq_iff_eq.mpr hm)]
      rw [List.find?_cons_of_pos (p := fun r : DailyAssignment => r.id == k) _
        (beq_iff_eq.mpr hx)]
      rfl
    · rw [if_neg (by simp [hx])]
      rw [List.find?_cons_of_neg _ (by simp [hx])]
      rw [List.find?_cons_of_neg _ (by simp [hx])]
      exact ih

/-- A keyed replacement touching no present key is the identity. -/
theorem map_replace_id (l : List DailyAssignment) (k : Nat) (m : DailyAssignment)
    (h : ∀ r ∈ l, r.id ≠ k) :
    l.map (fun r => if r.id == k then m else r) = l := by
  induction l with
  | nil => rfl
  | cons x xs ih =>
    have hx : x.id ≠ k := h x (List.mem_cons_self ..)
    rw [List.map_cons, if_neg (by simp [hx]),
      ih (fun r hr => h r (List.mem_cons_of_mem _ hr))]

/-- Counting after the pair/unpair row pipeline (drop the rows keyed `b`,
replace the rows keyed `a` by `cl`) as a single traversal of the original
table. -/
theorem countP_filter_map_replace (l : List DailyAssignment) (b a : Nat)
    (cl : DailyAssignment) (p : DailyAssignment → Bool) :
    ((l.filter (fun r => r.id != b)).map
        (fun r => if r.id == a then cl else r)).countP p =
      l.countP (fun r => !(r.id == b) && (if r.id == a then p cl else p r)) := by
  induction l with
  | nil => rfl
  | cons x xs ih =>
    by_cases hb : x.id = b
    · rw [List.filter_cons_of_neg (by simp [hb]), ih, List.countP_cons]
      simp [hb]
    · rw [List.filter_cons_of_pos (by simp [hb]), List.map_cons,
        List.countP_cons, List.countP_cons, ih]
      by_cases ha : x.id = a
      · have hab : ¬ a = b := fun hc => hb (ha.trans hc)
        simp [ha, hb, hab]
      · simp [ha, hb]

/-- With pairwise-distinct primary keys, a present key is hit exactly once. -/
theorem countP_key_eq_one (l : List DailyAssignment) (x : DailyAssignment)
    (hmem : x ∈ l) (hnodup : (l.map DailyAssignment.id).Nodup) :
    l.countP (fun r => r.id == x.id) = 1 := by
  induction l with
  | nil => cases hmem
  | cons y ys ih =>
    rw [List.map_cons, List.nodup_cons] at hnodup
    rcases List.mem_cons.mp hmem with h | h
    · subst h
      have hz : ys.countP (fun r => r.id == x.id) = 0 := by
        rw [List.countP_eq_zero]
        intro r hr hcontra
        exact hnodup.1 (List.mem_map.mpr ⟨r, hr, beq_iff_eq.mp hcontra⟩)
      rw [List.countP_cons, hz]
      simp
    · have hne : (y.id == x.id) = false := by
        refine beq_eq_false_iff_ne.mpr ?_
        intro he
        exact hnodup.1 (List.mem_map.mpr ⟨x, h, he.symm⟩)
      rw [List.countP_cons, ih h hnodup.2]
      simp [hne]

/-! ## Claims -/

/-- C10: `update_assignment` takes its body as `AssignmentCreate`
(`assignments.py` line 147), so the `at_least_one` pydantic validator runs
before the route body: an update whose `van_id` and `driver_id` are both null
is rejected with a `ValidationError` — and, the error being raised before the
route body runs, no field of the stored assignment is touched (an `.error`
result carries no successor store). -/
theorem update_rejects_empty_payload (db : DB) (assignment_id : Nat)
    (p : AssignmentCreate) (hv : p.van_id = none) (hd : p.driver_id = none) :
    update_assignment db assignment_id p =
      .error (.validationError
        "At least one of van_id or driver_id must be provided") := by
  unfold update_assignment
  rw [show at_least_one p = .error (.validationError
    "At least one of van_id or driver_id must be provided") from by
      simp [at_least_one, hv, hd]]

/-- Witness for C10 at a concrete store and payload. -/
theorem update_rejects_empty_payload_witness :
    update_assignment ⟨[], [], [], [], 0⟩ 1 ⟨5, none, none, none⟩ =
      .error (.validationError
        "At least one of van_id or driver_id must be provided") :=
  update_rejects_empty_payload ⟨[], [], [], [], 0⟩ 1 ⟨5, none, none, none⟩ rfl rfl

/-- C8: an identifier that resolves to no known active record never fails a
bulk batch: the van-code loop and the employee-id driver loop leave the loop
state — rows and both counters included — completely unchanged, while the
name-matching loop only appends the name to the returned `not_found` list. -/
theorem bulk_unresolved_identifier_soft :
    (∀ (dt : Nat) (activeVans : List Van) (existingIds : List Nat)
        (s : BulkVanState) (code : String),
      activeVans.find? (fun v => v.code == code) = none →
      bulkVanStep dt activeVans existingIds s code = s) ∧
    (∀ (dt : Nat) (activeDrivers : List Driver)
        (preassigns : List DriverVanPreassignment) (existingIds : List Nat)
        (s : BulkDriverState) (eid : String),
      activeDrivers.find? (fun d => d.employee_id == eid) = none →
      bulkDriverStep dt activeDrivers preassigns existingIds s eid = s) ∧
    (∀ (dt : Nat) (activeDrivers : List Driver)
        (preassigns : List DriverVanPreassignment)
        (s : BulkNameState) (name : String),
      _fuzzy_match_driver name
          (activeDrivers.filter (fun d => !(s.matchedDrivers.contains d.id))) = none →
      bulkNameStep dt activeDrivers preassigns s name =
        { s with notFoundNames := s.notFoundNames ++ [name] }) := by
  refine ⟨?_, ?_, ?_⟩
  · intro dt av ei s code h
    simp [bulkVanStep, h]
  · intro dt ad pa ei s eid h
    simp [bulkDriverStep, h]
  · intro dt ad pa s name h
    have h' : _fuzzy_match_driver name
        (ad.filter (fun d => !decide (d.id ∈ s.matchedDrivers))) = none := by
      simpa using h
    simp [bulkNameStep, h']

/-- Witness for C8: one unresolved identifier through each of the three
loops. -/
theorem bulk_unresolved_identifier_soft_witness :
    bulkVanStep 1 [] [] ⟨[], 5, 0, 0⟩ "ZZ" = ⟨[], 5, 0, 0⟩ ∧
    bulkDriverStep 1 [] [] [] ⟨[], 5, 0, 0, []⟩ "E9" = ⟨[], 5, 0, 0, []⟩ ∧
    bulkNameStep 1 [] [] ⟨[], 5, 0, 0, [], [], [], []⟩ "Zed Zeta" =
      ⟨[], 5, 0, 0, [], [], [], ["Zed Zeta"]⟩ :=
  ⟨bulk_unresolved_identifier_soft.1 1 [] [] ⟨[], 5, 0, 0⟩ "ZZ" rfl,
   bulk_unresolved_identifier_soft.2.1 1 [] [] [] ⟨[], 5, 0, 0, []⟩ "E9" rfl,
   bulk_unresolved_identifier_soft.2.2 1 [] [] ⟨[], 5, 0, 0, [], [], [], []⟩
     "Zed Zeta" rfl⟩

/-- C6: every malformed `Pair` request fails with the specific
`ValidationError` the source raises — "driver" row without a driver or with a
van already, "van" row without a van or with a driver already, and a date
mismatch fails with the message mentioning "must be on the same date".  Every
such failure returns before any row is written, and an `.error` result
carries no successor store, so neither row is mutated. -/
theorem pair_validation_failures :
    (∀ (db : DB) (a b : Nat) (A : DailyAssignment),
      db.assignments.find? (fun r => r.id == a) = some A →
      A.driver_id = none →
      pair_assignments db a b = .error (.validationError "Assignment has no driver")) ∧
    (∀ (db : DB) (a b : Nat) (A : DailyAssignment),
      db.assignments.find? (fun r => r.id == a) = some A →
      A.driver_id ≠ none → A.van_id ≠ none →
      pair_assignments db a b =
        .error (.validationError "Driver assignment already has a van")) ∧
    (∀ (db : DB) (a b : Nat) (A B : DailyAssignment),
      db.assignments.find? (fun r => r.id == a) = some A →
      A.driver_id ≠ none → A.van_id = none →
      db.assignments.find? (fun r => r.id == b) = some B →
      B.van_id = none →
      pair_assignments db a b = .error (.validationError "Assignment has no van")) ∧
    (∀ (db : DB) (a b : Nat) (A B : DailyAssignment),
      db.assignments.find? (fun r => r.id == a) = some A →
      A.driver_id ≠ none → A.van_id = none →
      db.assignments.find? (fun r => r.id == b) = some B →
      B.van_id ≠ none → B.driver_id ≠ none →
      pair_assignments db a b =
        .error (.validationError "Van assignment already has a driver")) ∧
    (∀ (db : DB) (a b : Nat) (A B : DailyAssignment),
      db.assignments.find? (fun r => r.id == a) = some A →
      A.driver_id ≠ none → A.van_id = none →
      db.assignments.find? (fun r => r.id == b) = some B →
      B.van_id ≠ none → B.driver_id = none →
      A.assignment_date ≠ B.assignment_date →
      pair_assignments db a b =
        .error (.validationError "Assignments must be on the same date")) := by
  refine ⟨?_, ?_, ?_, ?_, ?_⟩
  · intro db a b A hA hAd
    simp [pair_assignments, hA, hAd]
  · intro db a b A hA hAd hAv
    simp [pair_assignments, hA, hAd, hAv]
  · intro db a b A B hA hAd hAv hB hBv
    simp [pair_assignments, hA, hAd, hAv, hB, hBv]
  · intro db a b A B hA hAd hAv hB hBv hBd
    simp [pair_assignments, hA, hAd, hAv, hB, hBv, hBd]
  · intro db a b A B hA hAd hAv hB hBv hBd hdate
    simp [pair_assignments, hA, hAd, hAv, hB, hBv, hBd, hdate]

/-- Witness for C6: each of the five failure shapes at a concrete store. -/
theorem pair_validation_failures_witness :
    (pair_assignments ⟨[], [], [⟨1, 4, some 9, none, none⟩], [], 2⟩ 1 1 =
      .error (.validationError "Assignment has no driver")) ∧
    (pair_assignments
        ⟨[], [], [⟨1, 4, some 9, some 3, none⟩], [], 2⟩ 1 1 =
      .error (.validationError "Driver assignment already has a van")) ∧
    (pair_assignments
        ⟨[], [], [⟨1, 4, none, some 3, none⟩], [], 2⟩ 1 1 =
      .error (.validationError "Assignment has no van")) ∧
    (pair_assignments
        ⟨[], [], [⟨1, 4, none, some 3, none⟩, ⟨2, 4, some 9, some 5, none⟩], [], 3⟩ 1 2 =
      .error (.validationError "Van assignment already has a driver")) ∧
    (pair_assignments
        ⟨[], [], [⟨1, 4, none, some 3, none⟩, ⟨2, 6, some 9, none, none⟩], [], 3⟩ 1 2 =
      .error (.validationError "Assignments must be on the same date")) :=
  ⟨pair_validation_failures.1 _ 1 1 ⟨1, 4, some 9, none, none⟩ rfl rfl,
   pair_validation_failures.2.1 _ 1 1 ⟨1, 4, some 9, some 3, none⟩ rfl
     (by decide) (by decide),
   pair_validation_failures.2.2.1 _ 1 1 ⟨1, 4, none, some 3, none⟩
     ⟨1, 4, none, some 3, none⟩ rfl (by decide) rfl rfl rfl,
   pair_validation_failures.2.2.2.1 _ 1 2 ⟨1, 4, none, some 3, none⟩
     ⟨2, 4, some 9, some 5, none⟩ rfl (by decide) rfl rfl (by decide) (by decide),
   pair_validation_failures.2.2.2.2 _ 1 2 ⟨1, 4, none, some 3, none⟩
     ⟨2, 6, some 9, none, none⟩ rfl (by decide) rfl rfl (by decide) rfl (by decide)⟩

/-- C2: creating a driver-only assignment for a driver with a standing
preassignment always succeeds; the created row picks up the preassigned van
exactly when no assignment on that date references it, and is left driver-only
otherwise — the auto-fill never turns the create into a failure. -/
theorem create_driver_only_autofill (db : DB) (p : AssignmentCreate) (d v : Nat)
    (hpv : p.van_id = none) (hpd : p.driver_id = some d)
    (hdrv : (db.drivers.find? (fun x => x.id == d)).isSome)
    (hnoconf : db.assignments.any (fun a =>
      a.assignment_date == p.assignment_date && a.driver_id == some d) = false)
    (hpre : preassignedVan db.preassignments d = some v) :
    ∃ db', create_assignment db p = .ok (db',
      ⟨db.nextId, p.assignment_date,
        if db.assignments.any (fun a =>
            a.assignment_date == p.assignment_date && a.van_id == some v) then
          none
        else some v,
        some d, p.notes⟩) := by
  obtain ⟨drv, hdrv'⟩ := Option.isSome_iff_exists.mp hdrv
  obtain ⟨pa, hpa, hpav⟩ :
      ∃ pa, db.preassignments.find? (fun x => x.driver_id == d) = some pa ∧
        pa.van_id = v := by
    unfold preassignedVan at hpre
    cases hfind : db.preassignments.find? (fun x => x.driver_id == d) with
    | none => rw [hfind] at hpre; cases hpre
    | some pa => rw [hfind] at hpre; exact ⟨pa, rfl, by simpa using hpre⟩
  have hval : at_least_one p = .ok p := by simp [at_least_one, hpd]
  have hvg : lookupVanChecked db p = .ok () := by simp [lookupVanChecked, hpv]
  have hdg : lookupDriverChecked db p = .ok () := by
    simp [lookupDriverChecked, hpd, hdrv', hnoconf]
  unfold create_assignment
  simp only [hval, hvg, hdg, hpd, hpv, hpa, hpav]
  by_cases hc : db.assignments.any (fun a =>
      a.assignment_date == p.assignment_date && a.van_id == some v) = true
  · rw [if_pos hc]
    have hany : (db.assignments ++
        [(⟨db.nextId, p.assignment_date, none, some d, p.notes⟩ :
          DailyAssignment)]).any (fun a =>
            a.assignment_date == p.assignment_date && a.van_id == some v) = true := by
      rw [List.any_append]
      simp [hc]
    rw [if_pos hany]
    exact ⟨_, rfl⟩
  · rw [if_neg hc]
    have hanyf : (db.assignments ++
        [(⟨db.nextId, p.assignment_date, none, some d, p.notes⟩ :
          DailyAssignment)]).any (fun a =>
            a.assignment_date == p.assignment_date && a.van_id == some v) = false := by
      rw [List.any_append]
      simp only [Bool.or_eq_false_iff]
      exact ⟨by simpa using hc, by simp⟩
    rw [if_neg (by simp [hanyf])]
    exact ⟨_, rfl⟩

/-- Witness for C2: both auto-fill branches at concrete stores — van 7 free
on the date (attached), then van 7 already referenced (row stays
driver-only, create still succeeds). -/
theorem create_driver_only_autofill_witness :
    (∃ db', create_assignment ⟨[], [⟨3, "E3", "Dana", true⟩], [], [⟨1, 3, 7⟩], 10⟩
      ⟨5, none, some 3, none⟩ = .ok (db', ⟨10, 5, some 7, some 3, none⟩)) ∧
    (∃ db', create_assignment
        ⟨[], [⟨3, "E3", "Dana", true⟩], [⟨1, 5, some 7, some 99, none⟩], [⟨1, 3, 7⟩], 10⟩
      ⟨5, none, some 3, none⟩ = .ok (db', ⟨10, 5, none, some 3, none⟩)) :=
  ⟨create_driver_only_autofill ⟨[], [⟨3, "E3", "Dana", true⟩], [], [⟨1, 3, 7⟩], 10⟩
      ⟨5, none, some 3, none⟩ 3 7 rfl rfl (by decide) (by decide) rfl,
   create_driver_only_autofill
      ⟨[], [⟨3, "E3", "Dana", true⟩], [⟨1, 5, some 7, some 99, none⟩], [⟨1, 3, 7⟩], 10⟩
      ⟨5, none, some 3, none⟩ 3 7 rfl rfl (by decide) (by decide) rfl⟩

/-- Appending one fresh row keeps the uniqueness invariant provided the
row's date+van and date+driver slots are unoccupied. -/
theorem uniqueAssignments_append (db : DB) (dt : Nat) (r' : DailyAssignment)
    (huniq : uniqueAssignments db.assignments)
    (hdate : r'.assignment_date = dt)
    (hv : ∀ v0, r'.van_id = some v0 → db.assignments.any (fun a =>
      a.assignment_date == dt && a.van_id == some v0) = false)
    (hd : ∀ d0, r'.driver_id = some d0 → db.assignments.any (fun a =>
      a.assignment_date == dt && a.driver_id == some d0) = false) :
    uniqueAssignments (db.assignments ++ [r']) := by
  unfold uniqueAssignments at huniq ⊢
  rw [List.pairwise_append]
  refine ⟨huniq, List.pairwise_singleton .., ?_⟩
  intro x hx y hy
  rw [List.mem_singleton] at hy
  subst hy
  intro hconf
  unfold conflictingPair at hconf
  obtain ⟨hcd, hcc⟩ := hconf
  rcases hcc with ⟨hveq, hvne⟩ | ⟨hdeq, hdne⟩
  · obtain ⟨v0, hv0⟩ := Option.ne_none_iff_exists'.mp hvne
    have hfalse := hv v0 (by rw [← hveq, hv0])
    rw [List.any_eq_false] at hfalse
    exact hfalse x hx (by simp [hcd.trans hdate, hv0])
  · obtain ⟨d0, hd0⟩ := Option.ne_none_iff_exists'.mp hdne
    have hfalse := hd d0 (by rw [← hdeq, hd0])
    rw [List.any_eq_false] at hfalse
    exact hfalse x hx (by simp [hcd.trans hdate, hd0])

/-- C1: the one-row-per-(date, van) and one-row-per-(date, driver) invariant
around `create_assignment`: creating a second assignment for an occupied
(date, van) slot fails with `Conflict`, symmetrically for (date, driver), and
any successful create carries the table-level uniqueness invariant forward
(auto-fill included). -/
theorem create_conflict_invariant :
    (∀ (db : DB) (p : AssignmentCreate) (vid : Nat) (van : Van)
        (r : DailyAssignment),
      p.van_id = some vid →
      db.vans.find? (fun x => x.id == vid) = some van →
      r ∈ db.assignments → r.assignment_date = p.assignment_date →
      r.van_id = some vid →
      ∃ m, create_assignment db p = .error (.conflict m)) ∧
    (∀ (db : DB) (p : AssignmentCreate) (did : Nat) (r : DailyAssignment),
      p.driver_id = some did →
      (∀ vid, p.van_id = some vid → (db.vans.find? (fun x => x.id == vid)).isSome) →
      (db.drivers.find? (fun x => x.id == did)).isSome →
      r ∈ db.assignments → r.assignment_date = p.assignment_date →
      r.driver_id = some did →
      ∃ m, create_assignment db p = .error (.conflict m)) ∧
    (∀ (db : DB) (p : AssignmentCreate) (db' : DB) (row : DailyAssignment),
      uniqueAssignments db.assignments →
      (∀ r ∈ db.assignments, r.id ≠ db.nextId) →
      create_assignment db p = .ok (db', row) →
      uniqueAssignments db'.assignments) := by
  refine ⟨?_, ?_, ?_⟩
  · intro db p vid van r hpv hvan hr hrd hrv
    have hval : at_least_one p = .ok p := by simp [at_least_one, hpv]
    have hany : db.assignments.any (fun a =>
        a.assignment_date == p.assignment_date && a.van_id == some vid) = true :=
      List.any_eq_true.mpr ⟨r, hr, by simp [hrd, hrv]⟩
    have hvg : lookupVanChecked db p = .error (.conflict
        ("Van '" ++ van.code ++ "' is already assigned on "
          ++ toString p.assignment_date)) := by
      simp [lookupVanChecked, hpv, hvan, hany]
    refine ⟨"Van '" ++ van.code ++ "' is already assigned on "
      ++ toString p.assignment_date, ?_⟩
    unfold create_assignment
    simp only [hval, hvg]
  · intro db p did r hpd hvex hdex hr hrd hrv
    have hval : at_least_one p = .ok p := by simp [at_least_one, hpd]
    obtain ⟨drv, hdrv⟩ := Option.isSome_iff_exists.mp hdex
    have hany : db.assignments.any (fun a =>
        a.assignment_date == p.assignment_date && a.driver_id == some did) = true :=
      List.any_eq_true.mpr ⟨r, hr, by simp [hrd, hrv]⟩
    have hdg : lookupDriverChecked db p = .error (.conflict
        ("Driver '" ++ drv.name ++ "' already has an assignment on "
          ++ toString p.assignment_date)) := by
      simp [lookupDriverChecked, hpd, hdrv, hany]
    cases hpvc : p.van_id with
    | none =>
      have hvg : lookupVanChecked db p = .ok () := by simp [lookupVanChecked, hpvc]
      refine ⟨"Driver '" ++ drv.name ++ "' already has an assignment on "
        ++ toString p.assignment_date, ?_⟩
      unfold create_assignment
      simp only [hval, hvg, hdg]
    | some vid =>
      obtain ⟨van, hvan⟩ := Option.isSome_iff_exists.mp (hvex vid hpvc)
      by_cases hva : db.assignments.any (fun a =>
          a.assignment_date == p.assignment_date && a.van_id == some vid) = true
      · have hvg : lookupVanChecked db p = .error (.conflict
            ("Van '" ++ van.code ++ "' is already assigned on "
              ++ toString p.assignment_date)) := by
          simp [lookupVanChecked, hpvc, hvan, hva]
        refine ⟨"Van '" ++ van.code ++ "' is already assigned on "
          ++ toString p.assignment_date, ?_⟩
        unfold create_assignment
        simp only [hval, hvg]
      · have hvg : lookupVanChecked db p = .ok () := by
          simp [lookupVanChecked, hpvc, hvan, hva]
        refine ⟨"Driver '" ++ drv.name ++ "' already has an assignment on "
          ++ toString p.assignment_date, ?_⟩
        unfold create_assignment
        simp only [hval, hvg, hdg]
  · intro db p db' row huniq hfresh hok
    by_cases hn : p.van_id = none ∧ p.driver_id = none
    · have hval : at_least_one p = .error (.validationError
          "At least one of van_id or driver_id must be provided") := by
        simp [at_least_one, hn]
      unfold create_assignment at hok
      rw [hval] at hok
      simp at hok
    · have hval : at_least_one p = .ok p := by simp [at_least_one, hn]
      cases hvg : lookupVanChecked db p with
      | error e =>
        unfold create_assignment at hok
        simp [hval, hvg] at hok
      | ok u =>
        cases u
        cases hdg : lookupDriverChecked db p with
        | error e =>
          unfold create_assignment at hok
          simp [hval, hvg, hdg] at hok
        | ok u =>
          cases u
          unfold create_assignment at hok
          simp only [hval, hvg, hdg] at hok
          have hvanok : ∀ vid, p.van_id = some vid →
              db.assignments.any (fun a =>
                a.assignment_date == p.assignment_date &&
                  a.van_id == some vid) = false := by
            intro vid hvid
            have hvg' := hvg
            simp only [lookupVanChecked, hvid] at hvg'
            cases hfind : db.vans.find? (fun v => v.id == vid) with
            | none => simp only [hfind] at hvg'; cases hvg'
            | some van =>
              simp only [hfind] at hvg'
              by_cases hva : db.assignments.any (fun a =>
                  a.assignment_date == p.assignment_date &&
                    a.van_id == some vid) = true
              · rw [if_pos hva] at hvg'; cases hvg'
              · simpa using hva
          have hdrvok : ∀ did, p.driver_id = some did →
              db.assignments.any (fun a =>
                a.assignment_date == p.assignment_date &&
                  a.driver_id == some did) = false := by
            intro did hdid
            have hdg' := hdg
            simp only [lookupDriverChecked, hdid] at hdg'
            cases hfind : db.drivers.find? (fun v => v.id == did) with
            | none => simp only [hfind] at hdg'; cases hdg'
            | some drv =>
              simp only [hfind] at hdg'
              by_cases hda : db.assignments.any (fun a =>
                  a.assignment_date == p.assignment_date &&
                    a.driver_id == some did) = true
              · rw [if_pos hda] at hdg'; cases hdg'
              · simpa using hda
          cases hpd : p.driver_id with
          | none =>
            -- fall-through pattern of the auto-fill match: no auto-fill
            simp only [hpd] at hok
            simp only [Except.ok.injEq, Prod.mk.injEq] at hok
            obtain ⟨hdb', -⟩ := hok
            rw [← hdb']
            refine uniqueAssignments_append db p.assignment_date _ huniq rfl ?_ ?_
            · intro v0 h0
              exact hvanok v0 (by simpa using h0)
            · intro d0 h0
              simp at h0
          | some did =>
            cases hpv : p.van_id with
            | some vid =>
              simp only [hpd, hpv] at hok
              simp only [Except.ok.injEq, Prod.mk.injEq] at hok
              obtain ⟨hdb', -⟩ := hok
              rw [← hdb']
              refine uniqueAssignments_append db p.assignment_date _ huniq rfl ?_ ?_
              · intro v0 h0
                exact hvanok v0 (by rw [hpv]; simpa using h0)
              · intro d0 h0
                exact hdrvok d0 (by rw [hpd]; simpa using h0)
            | none =>
              simp only [hpd, hpv] at hok
              cases hpre : db.preassignments.find? (fun pa => pa.driver_id == did) with
              | none =>
                simp only [hpre] at hok
                simp only [Except.ok.injEq, Prod.mk.injEq] at hok
                obtain ⟨hdb', -⟩ := hok
                rw [← hdb']
                refine uniqueAssignments_append db p.assignment_date _ huniq rfl ?_ ?_
                · intro v0 h0
                  simp at h0
                · intro d0 h0
                  exact hdrvok d0 (by rw [hpd]; simpa using h0)
              | some pa =>
                simp only [hpre] at hok
                by_cases hva : ((db.assignments ++
                    [(⟨db.nextId, p.assignment_date, none, some did,
                      p.notes⟩ : DailyAssignment)]).any (fun a =>
                        a.assignment_date == p.assignment_date &&
                          a.van_id == some pa.van_id)) = true
                · rw [if_pos hva] at hok
                  simp only [Except.ok.injEq, Prod.mk.injEq] at hok
                  obtain ⟨hdb', -⟩ := hok
                  rw [← hdb']
                  refine uniqueAssignments_append db p.assignment_date _ huniq
                    rfl ?_ ?_
                  · intro v0 h0
                    simp at h0
                  · intro d0 h0
                    exact hdrvok d0 (by rw [hpd]; simpa using h0)
                · rw [if_neg hva] at hok
                  simp only [Except.ok.injEq, Prod.mk.injEq] at hok
                  obtain ⟨hdb', -⟩ := hok
                  rw [← hdb']
                  have hdbany : db.assignments.any (fun a =>
                      a.assignment_date == p.assignment_date &&
                        a.van_id == some pa.van_id) = false := by
                    have hva2 : ((db.assignments ++
                        [(⟨db.nextId, p.assignment_date, none, some did,
                          p.notes⟩ : DailyAssignment)]).any (fun a =>
                            a.assignment_date == p.assignment_date &&
                              a.van_id == some pa.van_id)) = false := by
                      simpa using hva
                    rw [List.any_append] at hva2
                    exact (Bool.or_eq_false_iff.mp hva2).1
                  have hmap : (db.assignments ++
                      [(⟨db.nextId, p.assignment_date, none, some did,
                        p.notes⟩ : DailyAssignment)]).map
                        (fun a => if a.id == db.nextId then
                          (⟨db.nextId, p.assignment_date, some pa.van_id,
                            some did, p.notes⟩ : DailyAssignment)
                          else a) =
                      db.assignments ++
                        [(⟨db.nextId, p.assignment_date, some pa.van_id,
                          some did, p.notes⟩ : DailyAssignment)] := by
                    rw [List.map_append, map_replace_id db.assignments db.nextId _
                      hfresh]
                    simp
                  rw [hmap]
                  refine uniqueAssignments_append db p.assignment_date _ huniq
                    rfl ?_ ?_
                  · intro v0 h0
                    have : pa.van_id = v0 := by simpa using h0
                    rw [← this]
                    exact hdbany
                  · intro d0 h0
                    exact hdrvok d0 (by rw [hpd]; simpa using h0)

/-- Witness for C1: a duplicate (date, van) create and a duplicate
(date, driver) create each hit `Conflict` at concrete stores, and a concrete
successful create preserves the uniqueness invariant. -/
theorem create_conflict_invariant_witness :
    (∃ m, create_assignment
        ⟨[⟨7, "V7", none, none, true⟩], [], [⟨1, 5, some 7, none, none⟩], [], 2⟩
        ⟨5, some 7, none, none⟩ = .error (.conflict m)) ∧
    (∃ m, create_assignment
        ⟨[], [⟨3, "E3", "Dana", true⟩], [⟨1, 5, none, some 3, none⟩], [], 2⟩
        ⟨5, none, some 3, none⟩ = .error (.conflict m)) ∧
    uniqueAssignments
      (⟨[], [⟨3, "E3", "Dana", true⟩], [⟨1, 5, none, some 3, none⟩], [], 2⟩ :
        DB).assignments :=
  ⟨create_conflict_invariant.1
      ⟨[⟨7, "V7", none, none, true⟩], [], [⟨1, 5, some 7, none, none⟩], [], 2⟩
      ⟨5, some 7, none, none⟩ 7 ⟨7, "V7", none, none, true⟩
      ⟨1, 5, some 7, none, none⟩ rfl rfl (by decide) rfl rfl,
   create_conflict_invariant.2.1
      ⟨[], [⟨3, "E3", "Dana", true⟩], [⟨1, 5, none, some 3, none⟩], [], 2⟩
      ⟨5, none, some 3, none⟩ 3 ⟨1, 5, none, some 3, none⟩ rfl
      (fun vid h => nomatch h) (by decide) (by decide) rfl rfl,
   create_conflict_invariant.2.2
      ⟨[], [⟨3, "E3", "Dana", true⟩], [], [], 1⟩ ⟨5, none, some 3, none⟩
      ⟨[], [⟨3, "E3", "Dana", true⟩], [⟨1, 5, none, some 3, none⟩], [], 2⟩
      ⟨1, 5, none, some 3, none⟩ (by decide) (by decide) rfl⟩

/-- Conflicting-pair collisions read the same in either order. -/
theorem not_conflictingPair_symmetric :
    Symmetric (fun a b : DailyAssignment => ¬ conflictingPair a b) := by
  intro a b hab hba
  apply hab
  unfold conflictingPair at hba ⊢
  obtain ⟨hd, hc⟩ := hba
  refine ⟨hd.symm, ?_⟩
  rcases hc with ⟨hv, hvn⟩ | ⟨hdr, hdn⟩
  · exact Or.inl ⟨hv.symm, hv ▸ hvn⟩
  · exact Or.inr ⟨hdr.symm, hdr ▸ hdn⟩

/-- Replacing the one row found under key `i` by itself is the identity. -/
theorem map_replace_found (l : List DailyAssignment) (i : Nat) (R : DailyAssignment)
    (hfind : l.find? (fun a => a.id == i) = some R)
    (hnodup : (l.map DailyAssignment.id).Nodup) :
    l.map (fun a => if a.id == i then R else a) = l := by
  induction l with
  | nil => cases hfind
  | cons x xs ih =>
    rw [List.map_cons, List.nodup_cons] at hnodup
    by_cases hx : x.id = i
    · rw [List.find?_cons_of_pos (p := fun a : DailyAssignment => a.id == i) _
        (beq_iff_eq.mpr hx)] at hfind
      have hR : R = x := by cases hfind; rfl
      rw [List.map_cons, if_pos (beq_iff_eq.mpr hx), ← hR]
      have hxs : ∀ a ∈ xs, a.id ≠ i := by
        intro a ha hai
        exact hnodup.1 (List.mem_map.mpr ⟨a, ha, hai.trans hx.symm⟩)
      rw [map_replace_id xs i R hxs, hR]
    · rw [List.find?_cons_of_neg (p := fun a : DailyAssignment => a.id == i) _
        (by simp [hx])] at hfind
      rw [List.map_cons, if_neg (by simp [hx]), ih hfind hnodup.2]

/-- The tail of the update path always succeeds with the overwritten row. -/
theorem update_driver_gate_ok (db : DB) (i : Nat) (data : AssignmentCreate)
    (assignment : DailyAssignment) (db' : DB) (row' : DailyAssignment)
    (hok : update_driver_gate db i data assignment = .ok (db', row')) :
    row' = { assignment with
      assignment_date := data.assignment_date,
      van_id := data.van_id,
      driver_id := data.driver_id,
      notes := data.notes } ∧
    db' = { db with assignments :=
      db.assignments.map (fun a => if a.id == i then row' else a) } := by
  unfold update_driver_gate at hok
  cases hpd : data.driver_id with
  | none =>
    simp only [hpd] at hok
    unfold update_write at hok
    simp only [Except.ok.injEq, Prod.mk.injEq] at hok
    obtain ⟨hdb, hrow⟩ := hok
    rw [← hrow, ← hdb]
    exact ⟨by rw [hpd], rfl⟩
  | some did =>
    simp only [hpd] at hok
    by_cases hc : (db.assignments.any (fun a =>
        a.assignment_date == data.assignment_date && a.driver_id == some did &&
          a.id != i)) = true
    · rw [if_pos hc] at hok
      cases hok
    · rw [if_neg hc] at hok
      unfold update_write at hok
      simp only [Except.ok.injEq, Prod.mk.injEq] at hok
      obtain ⟨hdb, hrow⟩ := hok
      rw [← hrow, ← hdb]
      exact ⟨by rw [hpd], rfl⟩

/-- C5: `update_assignment` runs the create-path conflict checks excluding
the row's own id — re-saving a row with its own unchanged values succeeds and
changes nothing — while a clash with a *different* row's (date, van) or
(date, driver) is a `Conflict`; on success the row's date, van, driver and
notes are exactly the provided values (a null input clears the reference, and
no preassignment auto-fill ever runs: the final van is the input van even
when a preassignment exists). -/
theorem update_overwrite_excludes_self :
    (∀ (db : DB) (i : Nat) (R : DailyAssignment),
      db.assignments.find? (fun a => a.id == i) = some R →
      uniqueAssignments db.assignments →
      (db.assignments.map DailyAssignment.id).Nodup →
      ¬(R.van_id = none ∧ R.driver_id = none) →
      update_assignment db i ⟨R.assignment_date, R.van_id, R.driver_id, R.notes⟩ =
        .ok (db, R)) ∧
    (∀ (db : DB) (i : Nat) (p : AssignmentCreate) (db' : DB)
        (row' : DailyAssignment),
      update_assignment db i p = .ok (db', row') →
      row'.assignment_date = p.assignment_date ∧ row'.van_id = p.van_id ∧
      row'.driver_id = p.driver_id ∧ row'.notes = p.notes ∧
      db'.assignments =
        db.assignments.map (fun a => if a.id == i then row' else a) ∧
      db'.nextId = db.nextId) ∧
    (∀ (db : DB) (i : Nat) (p : AssignmentCreate) (R o : DailyAssignment)
        (vid : Nat),
      db.assignments.find? (fun a => a.id == i) = some R →
      p.van_id = some vid →
      o ∈ db.assignments → o.id ≠ i → o.assignment_date = p.assignment_date →
      o.van_id = some vid →
      ∃ m, update_assignment db i p = .error (.conflict m)) ∧
    (∀ (db : DB) (i : Nat) (p : AssignmentCreate) (R o : DailyAssignment)
        (did : Nat),
      db.assignments.find? (fun a => a.id == i) = some R →
      p.van_id = none → p.driver_id = some did →
      o ∈ db.assignments → o.id ≠ i → o.assignment_date = p.assignment_date →
      o.driver_id = some did →
      ∃ m, update_assignment db i p = .error (.conflict m)) := by
  refine ⟨?_, ?_, ?_, ?_⟩
  · intro db i R hfind huniq hnodup hne
    have hRi : R.id = i := by
      have h := List.find?_some hfind
      simpa using h
    have hRmem : R ∈ db.assignments := List.mem_of_find?_eq_some hfind
    unfold uniqueAssignments at huniq
    have hval : at_least_one ⟨R.assignment_date, R.van_id, R.driver_id, R.notes⟩ =
        .ok ⟨R.assignment_date, R.van_id, R.driver_id, R.notes⟩ := by
      unfold at_least_one
      rw [if_neg hne]
    have hwrite : update_write db i
        ⟨R.assignment_date, R.van_id, R.driver_id, R.notes⟩ R = .ok (db, R) := by
      show Except.ok
        ({ db with assignments :=
          db.assignments.map (fun a => if a.id == i then R else a) }, R) =
        .ok (db, R)
      rw [map_replace_found db.assignments i R hfind hnodup]
    have hanyd : ∀ did, R.driver_id = some did →
        (db.assignments.any (fun a =>
          a.assignment_date == R.assignment_date && a.driver_id == some did &&
            a.id != i)) = false := by
      intro did hRd
      rw [List.any_eq_false]
      intro a ha hpred
      simp only [Bool.and_eq_true, beq_iff_eq, bne_iff_ne, ne_eq] at hpred
      obtain ⟨⟨hd, hdid⟩, hid⟩ := hpred
      have hane : a ≠ R := fun he => hid (by rw [he, hRi])
      exact List.Pairwise.forall not_conflictingPair_symmetric huniq ha hRmem hane
        ⟨hd, Or.inr ⟨by rw [hdid, hRd], by simp [hdid]⟩⟩
    have hanyv : ∀ vid, R.van_id = some vid →
        (db.assignments.any (fun a =>
          a.assignment_date == R.assignment_date && a.van_id == some vid &&
            a.id != i)) = false := by
      intro vid hRv
      rw [List.any_eq_false]
      intro a ha hpred
      simp only [Bool.and_eq_true, beq_iff_eq, bne_iff_ne, ne_eq] at hpred
      obtain ⟨⟨hd, hvid⟩, hid⟩ := hpred
      have hane : a ≠ R := fun he => hid (by rw [he, hRi])
      exact List.Pairwise.forall not_conflictingPair_symmetric huniq ha hRmem hane
        ⟨hd, Or.inl ⟨by rw [hvid, hRv], by simp [hvid]⟩⟩
    have hgate : update_driver_gate db i
        ⟨R.assignment_date, R.van_id, R.driver_id, R.notes⟩ R = .ok (db, R) := by
      unfold update_driver_gate
      cases hRd : R.driver_id with
      | none => simpa only [hRd] using hwrite
      | some did =>
        simp only [hRd]
        rw [if_neg (by simp [hanyd did hRd])]
        exact hRd ▸ hwrite
    unfold update_assignment
    simp only [hval, hfind]
    cases hRv : R.van_id with
    | none => simpa only [hRv] using hgate
    | some vid =>
      simp only [hRv]
      rw [if_neg (by simp [hanyv vid hRv])]
      exact hRv ▸ hgate
  · intro db i p db' row' hok
    unfold update_assignment at hok
    by_cases hn : p.van_id = none ∧ p.driver_id = none
    · simp [at_least_one, hn] at hok
    · have hval : at_least_one p = .ok p := by simp [at_least_one, hn]
      simp only [hval] at hok
      cases hfind : db.assignments.find? (fun a => a.id == i) with
      | none => simp only [hfind] at hok; cases hok
      | some R =>
        simp only [hfind] at hok
        have hgate : update_driver_gate db i p R = .ok (db', row') := by
          cases hpv : p.van_id with
          | none => simpa only [hpv] using hok
          | some vid =>
            simp only [hpv] at hok
            by_cases hc : (db.assignments.any (fun a =>
                a.assignment_date == p.assignment_date && a.van_id == some vid &&
                  a.id != i)) = true
            · rw [if_pos hc] at hok; cases hok
            · rw [if_neg hc] at hok; exact hok
        obtain ⟨hrow, hdb⟩ := update_driver_gate_ok db i p R db' row' hgate
        subst hrow
        subst hdb
        exact ⟨rfl, rfl, rfl, rfl, rfl, rfl⟩
  · intro db i p R o vid hfind hpv ho hoid hod hov
    have hval : at_least_one p = .ok p := by simp [at_least_one, hpv]
    have hany : (db.assignments.any (fun a =>
        a.assignment_date == p.assignment_date && a.van_id == some vid &&
          a.id != i)) = true :=
      List.any_eq_true.mpr ⟨o, ho, by simp [hod, hov, hoid]⟩
    refine ⟨"Van '" ++ (((db.vans.find? (fun v => v.id == vid)).map Van.code).getD "")
      ++ "' is already assigned on " ++ toString p.assignment_date, ?_⟩
    unfold update_assignment
    simp only [hval, hfind, hpv]
    rw [if_pos hany]
  · intro db i p R o did hfind hpv hpd ho hoid hod hodr
    have hval : at_least_one p = .ok p := by simp [at_least_one, hpd]
    have hany : (db.assignments.any (fun a =>
        a.assignment_date == p.assignment_date && a.driver_id == some did &&
          a.id != i)) = true :=
      List.any_eq_true.mpr ⟨o, ho, by simp [hod, hodr, hoid]⟩
    refine ⟨"Driver '"
      ++ (((db.drivers.find? (fun v => v.id == did)).map Driver.name).getD "")
      ++ "' already has an assignment on " ++ toString p.assignment_date, ?_⟩
    unfold update_assignment
    simp only [hval, hfind, hpv]
    unfold update_driver_gate
    simp only [hpd]
    rw [if_pos hany]

/-- Witness for C5: a self-resave that succeeds unchanged, a full overwrite
that ignores a standing preassignment (no auto-fill), and van/driver clashes
with a different row that hit `Conflict`. -/
theorem update_overwrite_excludes_self_witness :
    (update_assignment ⟨[], [], [⟨1, 5, some 7, some 3, none⟩], [], 2⟩ 1
        ⟨5, some 7, some 3, none⟩ =
      .ok (⟨[], [], [⟨1, 5, some 7, some 3, none⟩], [], 2⟩,
        ⟨1, 5, some 7, some 3, none⟩)) ∧
    ((⟨1, 6, none, some 3, none⟩ : DailyAssignment).assignment_date = 6 ∧
      (⟨1, 6, none, some 3, none⟩ : DailyAssignment).van_id = none ∧
      (⟨1, 6, none, some 3, none⟩ : DailyAssignment).driver_id = some 3 ∧
      (⟨1, 6, none, some 3, none⟩ : DailyAssignment).notes = none ∧
      (⟨[], [], [⟨1, 6, none, some 3, none⟩], [⟨1, 3, 9⟩], 2⟩ : DB).assignments =
        ([⟨1, 5, some 7, some 3, none⟩] : List DailyAssignment).map
          (fun a => if a.id == 1 then ⟨1, 6, none, some 3, none⟩ else a) ∧
      (⟨[], [], [⟨1, 6, none, some 3, none⟩], [⟨1, 3, 9⟩], 2⟩ : DB).nextId = 2) ∧
    (∃ m, update_assignment
        ⟨[], [], [⟨1, 5, some 7, some 3, none⟩, ⟨2, 5, some 8, none, none⟩], [], 3⟩
        2 ⟨5, some 7, none, none⟩ = .error (.conflict m)) ∧
    (∃ m, update_assignment
        ⟨[], [], [⟨1, 5, some 7, some 3, none⟩, ⟨2, 5, some 8, none, none⟩], [], 3⟩
        2 ⟨5, none, some 3, none⟩ = .error (.conflict m)) :=
  ⟨update_overwrite_excludes_self.1
      ⟨[], [], [⟨1, 5, some 7, some 3, none⟩], [], 2⟩ 1 ⟨1, 5, some 7, some 3, none⟩
      rfl (by decide) (by decide) (by decide),
   update_overwrite_excludes_self.2.1
      ⟨[], [], [⟨1, 5, some 7, some 3, none⟩], [⟨1, 3, 9⟩], 2⟩ 1
      ⟨6, none, some 3, none⟩
      ⟨[], [], [⟨1, 6, none, some 3, none⟩], [⟨1, 3, 9⟩], 2⟩
      ⟨1, 6, none, some 3, none⟩ rfl,
   update_overwrite_excludes_self.2.2.1
      ⟨[], [], [⟨1, 5, some 7, some 3, none⟩, ⟨2, 5, some 8, none, none⟩], [], 3⟩
      2 ⟨5, some 7, none, none⟩ ⟨2, 5, some 8, none, none⟩
      ⟨1, 5, some 7, some 3, none⟩ 7 rfl rfl (by decide) (by decide) rfl rfl,
   update_overwrite_excludes_self.2.2.2
      ⟨[], [], [⟨1, 5, some 7, some 3, none⟩, ⟨2, 5, some 8, none, none⟩], [], 3⟩
      2 ⟨5, none, some 3, none⟩ ⟨2, 5, some 8, none, none⟩
      ⟨1, 5, some 7, some 3, none⟩ 3 rfl rfl rfl (by decide) (by decide) rfl rfl⟩

/-- C9: the preassignment auto-fill checks only that no assignment on the
date references the preassigned van — never the van's `active` flag or
`operational_status`.  Conjunct one: for a driver-only payload the outcome of
`create_assignment` (error, created rows, returned row) does not depend on
the `vans` table at all.  Conjuncts two and three: an inactive GROUNDED van
is attached by the auto-fill of the single create and of the bulk driver
loop. -/
theorem autofill_ignores_van_status :
    (∀ (db : DB) (vans' : List Van) (p : AssignmentCreate),
      p.van_id = none →
      (create_assignment { db with vans := vans' } p).map
          (fun x => (x.1.assignments, x.1.nextId, x.2)) =
        (create_assignment db p).map
          (fun x => (x.1.assignments, x.1.nextId, x.2))) ∧
    (∃ db', create_assignment
        ⟨[⟨7, "KX70", none, some "GROUNDED", false⟩], [⟨3, "E3", "Dana", true⟩],
          [], [⟨1, 3, 7⟩], 10⟩
        ⟨5, none, some 3, none⟩ = .ok (db', ⟨10, 5, some 7, some 3, none⟩)) ∧
    ((bulk_upload_drivers
        ⟨[⟨7, "KX70", none, some "GROUNDED", false⟩], [⟨3, "E3", "Dana", true⟩],
          [], [⟨1, 3, 7⟩], 10⟩ 5 ["E3"]).1.assignments =
      [⟨10, 5, some 7, some 3, none⟩]) := by
  refine ⟨?_, ⟨_, rfl⟩, rfl⟩
  intro db vans' p hpv
  have hvg1 : lookupVanChecked { db with vans := vans' } p = .ok () := by
    simp [lookupVanChecked, hpv]
  have hvg2 : lookupVanChecked db p = .ok () := by simp [lookupVanChecked, hpv]
  unfold create_assignment
  cases hval : at_least_one p with
  | error e => simp [hval]
  | ok data =>
    have hdata : data = p := by
      unfold at_least_one at hval
      by_cases hn : p.van_id = none ∧ p.driver_id = none
      · rw [if_pos hn] at hval; cases hval
      · rw [if_neg hn] at hval; cases hval; rfl
    subst hdata
    simp only [hval, hvg1, hvg2]
    cases hdg : lookupDriverChecked db data with
    | error e =>
      have hdg' : lookupDriverChecked { db with vans := vans' } data = .error e := hdg
      simp [hdg, hdg']
    | ok u =>
      cases u
      have hdg' : lookupDriverChecked { db with vans := vans' } data = .ok () := hdg
      simp only [hdg, hdg']
      rfl

/-- Witness for C9: conjunct one applied with the GROUNDED-inactive vans
table swapped against the empty one. -/
theorem autofill_ignores_van_status_witness :
    (create_assignment
        ⟨[⟨7, "KX70", none, some "GROUNDED", false⟩], [⟨3, "E3", "Dana", true⟩],
          [], [⟨1, 3, 7⟩], 10⟩ ⟨5, none, some 3, none⟩).map
        (fun x => (x.1.assignments, x.1.nextId, x.2)) =
      (create_assignment ⟨[], [⟨3, "E3", "Dana", true⟩], [], [⟨1, 3, 7⟩], 10⟩
        ⟨5, none, some 3, none⟩).map
        (fun x => (x.1.assignments, x.1.nextId, x.2)) :=
  autofill_ignores_van_status.1 ⟨[], [⟨3, "E3", "Dana", true⟩], [], [⟨1, 3, 7⟩], 10⟩
    [⟨7, "KX70", none, some "GROUNDED", false⟩] ⟨5, none, some 3, none⟩ rfl

/-- C7: the fuzzy matcher is the three tiers in order, first hit winning
(conjunct one); "Ben Angilley" against any pool holding "Benjamin Angilley"
and no other driver whose last name token is "angilley" resolves to
"Benjamin Angilley" (conjunct two); "Simon Abbott" against a pool holding
only "Simon Peter Abbott" resolves to that driver (conjunct three). -/
theorem fuzzy_three_tiers :
    (∀ (file_name : String) (drivers : List Driver),
      _fuzzy_match_driver file_name drivers =
        (if (pySplit (pyNorm file_name)).isEmpty then none
         else ((fuzzyTier1 (pyNorm file_name) drivers).orElse (fun _ =>
           (fuzzyTier2 ((pySplit (pyNorm file_name)).headD [])
             ((pySplit (pyNorm file_name)).getLastD []) drivers).orElse (fun _ =>
           fuzzyTier3 (pySplit (pyNorm file_name)) drivers))))) ∧
    (∀ (l1 l2 : List Driver),
      (∀ d ∈ l1, (driverTokens d).getLastD [] ≠
        ['a','n','g','i','l','l','e','y']) →
      (∀ d ∈ l2, (driverTokens d).getLastD [] ≠
        ['a','n','g','i','l','l','e','y']) →
      _fuzzy_match_driver "Ben Angilley"
          (l1 ++ (⟨1, "B01", "Benjamin Angilley", true⟩ : Driver) :: l2) =
        some ⟨1, "B01", "Benjamin Angilley", true⟩) ∧
    (∀ (i : Nat) (e : String) (b : Bool),
      _fuzzy_match_driver "Simon Abbott" [⟨i, e, "Simon Peter Abbott", b⟩] =
        some ⟨i, e, "Simon Peter Abbott", b⟩) := by
  refine ⟨?_, ?_, ?_⟩
  · intro fn ds
    unfold _fuzzy_match_driver
    by_cases h0 : (pySplit (pyNorm fn)).isEmpty = true
    · rw [if_pos h0, if_pos h0]
    · rw [if_neg h0, if_neg h0]
      cases h1 : fuzzyTier1 (pyNorm fn) ds with
      | some d => simp [h1, Option.orElse]
      | none =>
        cases h2 : fuzzyTier2 ((pySplit (pyNorm fn)).headD [])
            ((pySplit (pyNorm fn)).getLastD []) ds with
        | some d => simp [h1, h2, Option.orElse]
        | none => simp [h1, h2, Option.orElse]
  · intro l1 l2 hl1 hl2
    have hne1 : ∀ d : Driver,
        (driverTokens d).getLastD [] ≠ ['a','n','g','i','l','l','e','y'] →
        (pyNorm d.name == pyNorm "Ben Angilley") = false := by
      intro d hlast
      cases hbn : pyNorm d.name == pyNorm "Ben Angilley" with
      | false => rfl
      | true =>
        exfalso
        apply hlast
        have heq : pyNorm d.name = pyNorm "Ben Angilley" := beq_iff_eq.mp hbn
        unfold driverTokens
        rw [heq]
        decide
    have hkeepf : ∀ d : Driver,
        (driverTokens d).getLastD [] ≠ ['a','n','g','i','l','l','e','y'] →
        fuzzyTier2Keep ['b','e','n'] ['a','n','g','i','l','l','e','y'] d = false := by
      intro d hlast
      have hb : ((driverTokens d).getLastD [] ==
          ['a','n','g','i','l','l','e','y']) = false :=
        beq_eq_false_iff_ne.mpr hlast
      simp only [fuzzyTier2Keep]
      rw [hb]
      simp
    have ht1 : fuzzyTier1 (pyNorm "Ben Angilley")
        (l1 ++ (⟨1, "B01", "Benjamin Angilley", true⟩ : Driver) :: l2) = none := by
      unfold fuzzyTier1
      apply List.find?_eq_none.mpr
      intro d hd
      rcases List.mem_append.mp hd with h | h
      · simp [hne1 d (hl1 d h)]
      · rcases List.mem_cons.mp h with h | h
        · subst h
          decide
        · simp [hne1 d (hl2 d h)]
    have hfl1 : l1.filter
        (fuzzyTier2Keep ['b','e','n'] ['a','n','g','i','l','l','e','y']) = [] :=
      List.filter_eq_nil_iff.mpr (fun d hd => by simp [hkeepf d (hl1 d hd)])
    have hfl2 : l2.filter
        (fuzzyTier2Keep ['b','e','n'] ['a','n','g','i','l','l','e','y']) = [] :=
      List.filter_eq_nil_iff.mpr (fun d hd => by simp [hkeepf d (hl2 d hd)])
    have ht2 : fuzzyTier2 ['b','e','n'] ['a','n','g','i','l','l','e','y']
        (l1 ++ (⟨1, "B01", "Benjamin Angilley", true⟩ : Driver) :: l2) =
        some ⟨1, "B01", "Benjamin Angilley", true⟩ := by
      unfold fuzzyTier2
      rw [List.filter_append, List.filter_cons, hfl1, hfl2]
      rw [if_pos (by decide)]
      rfl
    have hempty : (pySplit (pyNorm "Ben Angilley")).isEmpty = false := by decide
    have hhead : (pySplit (pyNorm "Ben Angilley")).headD [] = ['b','e','n'] := by
      decide
    have hlastt : (pySplit (pyNorm "Ben Angilley")).getLastD [] =
        ['a','n','g','i','l','l','e','y'] := by decide
    unfold _fuzzy_match_driver
    rw [if_neg (by rw [hempty]; exact Bool.false_ne_true)]
    rw [hhead, hlastt, ht1, ht2]
  · intro i e b
    rfl

/-- Witness for C7: conjunct one at a concrete name and pool, conjunct two
with a non-trivial flanking pool, conjunct three at a concrete driver. -/
theorem fuzzy_three_tiers_witness :
    (_fuzzy_match_driver "Ben Angilley"
        [⟨2, "X1", "Ann Smith", true⟩, ⟨1, "B01", "Benjamin Angilley", true⟩] =
      (if (pySplit (pyNorm "Ben Angilley")).isEmpty then none
       else ((fuzzyTier1 (pyNorm "Ben Angilley")
           [⟨2, "X1", "Ann Smith", true⟩, ⟨1, "B01", "Benjamin Angilley", true⟩]).orElse
         (fun _ =>
           (fuzzyTier2 ((pySplit (pyNorm "Ben Angilley")).headD [])
             ((pySplit (pyNorm "Ben Angilley")).getLastD [])
             [⟨2, "X1", "Ann Smith", true⟩,
              ⟨1, "B01", "Benjamin Angilley", true⟩]).orElse (fun _ =>
           fuzzyTier3 (pySplit (pyNorm "Ben Angilley"))
             [⟨2, "X1", "Ann Smith", true⟩,
              ⟨1, "B01", "Benjamin Angilley", true⟩]))))) ∧
    (_fuzzy_match_driver "Ben Angilley"
        ([⟨2, "X1", "Ann Smith", true⟩] ++
          (⟨1, "B01", "Benjamin Angilley", true⟩ : Driver) ::
            [⟨3, "X3", "Bob Stone", true⟩]) =
      some ⟨1, "B01", "Benjamin Angilley", true⟩) ∧
    (_fuzzy_match_driver "Simon Abbott" [⟨4, "S1", "Simon Peter Abbott", true⟩] =
      some ⟨4, "S1", "Simon Peter Abbott", true⟩) :=
  ⟨fuzzy_three_tiers.1 "Ben Angilley"
      [⟨2, "X1", "Ann Smith", true⟩, ⟨1, "B01", "Benjamin Angilley", true⟩],
   fuzzy_three_tiers.2.1 [⟨2, "X1", "Ann Smith", true⟩]
      [⟨3, "X3", "Bob Stone", true⟩] (by decide) (by decide),
   fuzzy_three_tiers.2.2 4 "S1" true⟩

/-- Batch loops that append rows, only ever grow their occupied-van set, and
attach a van only when it is unoccupied (marking it immediately) never attach
the same van twice in one batch, and never attach a van occupied before the
batch. -/
theorem foldl_no_double_van {σ α : Type} (step : σ → α → σ)
    (rowsOf : σ → List DailyAssignment) (occOf : σ → List Nat)
    (hstep : ∀ s e, ∃ new, rowsOf (step s e) = rowsOf s ++ new ∧
      (∀ v, v ∈ occOf s → v ∈ occOf (step s e)) ∧
      (∀ v, new.countP (fun a => a.van_id == some v) ≤ 1) ∧
      (∀ a ∈ new, ∀ v, a.van_id = some v → v ∉ occOf s ∧ v ∈ occOf (step s e))) :
    ∀ (l : List α) (s : σ), ∃ news,
      rowsOf (l.foldl step s) = rowsOf s ++ news ∧
      (∀ v, v ∈ occOf s → v ∈ occOf (l.foldl step s)) ∧
      (∀ v, news.countP (fun a => a.van_id == some v) ≤ 1 ∧
        (v ∈ occOf s → news.countP (fun a => a.van_id == some v) = 0)) := by
  intro l
  induction l with
  | nil =>
    intro s
    exact ⟨[], by simp, fun v hv => hv, fun v => ⟨by simp, fun _ => by simp⟩⟩
  | cons e rest ih =>
    intro s
    obtain ⟨new0, hr0, hmono0, hcnt0, hnew0⟩ := hstep s e
    obtain ⟨news1, hr1, hmono1, hcnt1⟩ := ih (step s e)
    refine ⟨new0 ++ news1, ?_, ?_, ?_⟩
    · rw [List.foldl_cons, hr1, hr0, List.append_assoc]
    · intro v hv
      rw [List.foldl_cons]
      exact hmono1 v (hmono0 v hv)
    · intro v
      constructor
      · rw [List.countP_append]
        by_cases h : 0 < new0.countP (fun a => a.van_id == some v)
        · obtain ⟨a, ha, hav⟩ := List.countP_pos_iff.mp h
          have hocc : v ∈ occOf (step s e) :=
            (hnew0 a ha v (by simpa using hav)).2
          have hz : news1.countP (fun a => a.van_id == some v) = 0 :=
            (hcnt1 v).2 hocc
          rw [hz]
          simpa using hcnt0 v
        · have hz : new0.countP (fun a => a.van_id == some v) = 0 :=
            Nat.eq_zero_of_not_pos h
          rw [hz]
          simpa using (hcnt1 v).1
      · intro hv
        rw [List.countP_append]
        have hz0 : new0.countP (fun a => a.van_id == some v) = 0 := by
          rw [List.countP_eq_zero]
          intro a ha hav
          exact ((hnew0 a ha v (by simpa using hav)).1) hv
        have hz1 : news1.countP (fun a => a.van_id == some v) = 0 :=
          (hcnt1 v).2 (hmono0 v hv)
        rw [hz0, hz1]

/-- Row/occupancy shape of one employee-id driver step, as needed by
`foldl_no_double_van`. -/
theorem bulkDriverStep_shape (dt : Nat) (activeDrivers : List Driver)
    (preassigns : List DriverVanPreassignment) (existingIds : List Nat)
    (s : BulkDriverState) (eid : String) :
    ∃ new, (bulkDriverStep dt activeDrivers preassigns existingIds s eid).rows =
        s.rows ++ new ∧
      (∀ v, v ∈ s.occupiedVans →
        v ∈ (bulkDriverStep dt activeDrivers preassigns existingIds s eid).occupiedVans) ∧
      (∀ v, new.countP (fun a => a.van_id == some v) ≤ 1) ∧
      (∀ a ∈ new, ∀ v, a.van_id = some v → v ∉ s.occupiedVans ∧
        v ∈ (bulkDriverStep dt activeDrivers preassigns existingIds s eid).occupiedVans) := by
  cases hf : activeDrivers.find? (fun d => d.employee_id == eid) with
  | none =>
    simp only [bulkDriverStep, hf]
    exact ⟨[], by simp, fun v hv => hv, fun v => by simp, fun a ha => absurd ha (by simp)⟩
  | some drv =>
    simp only [bulkDriverStep, hf]
    by_cases hmem : drv.id ∈ existingIds
    · rw [if_pos hmem]
      exact ⟨[], by simp, fun v hv => hv, fun v => by simp,
        fun a ha => absurd ha (by simp)⟩
    · rw [if_neg hmem]
      cases hpa : preassignedVan preassigns drv.id with
      | none =>
        refine ⟨[⟨s.nextId, dt, none, some drv.id, none⟩], by simp, fun v hv => hv,
          fun v => by simp, ?_⟩
        intro a ha v hav
        rw [List.mem_singleton] at ha
        subst ha
        cases hav
      | some v0 =>
        split
        next did h =>
          injection h with h2
          subst h2
          split
          next hocc =>
            refine ⟨[⟨s.nextId, dt, some v0, some drv.id, none⟩], rfl, ?_,
              fun v => Nat.le_trans (List.countP_le_length _) (by simp), ?_⟩
            · intro v hv
              exact List.mem_cons_of_mem _ hv
            · intro a ha v hav
              rw [List.mem_singleton] at ha
              subst ha
              cases hav
              exact ⟨hocc, List.mem_cons_self ..⟩
          next hocc =>
            refine ⟨[⟨s.nextId, dt, none, some drv.id, none⟩], rfl,
              fun v hv => hv,
              fun v => Nat.le_trans (List.countP_le_length _) (by simp), ?_⟩
            intro a ha v hav
            rw [List.mem_singleton] at ha
            subst ha
            cases hav
        next h => cases h

/-- Row/occupancy shape of one name-matching driver step, as needed by
`foldl_no_double_van`. -/
theorem bulkNameStep_shape (dt : Nat) (activeDrivers : List Driver)
    (preassigns : List DriverVanPreassignment)
    (s : BulkNameState) (name : String) :
    ∃ new, (bulkNameStep dt activeDrivers preassigns s name).rows =
        s.rows ++ new ∧
      (∀ v, v ∈ s.occupiedVans →
        v ∈ (bulkNameStep dt activeDrivers preassigns s name).occupiedVans) ∧
      (∀ v, new.countP (fun a => a.van_id == some v) ≤ 1) ∧
      (∀ a ∈ new, ∀ v, a.van_id = some v → v ∉ s.occupiedVans ∧
        v ∈ (bulkNameStep dt activeDrivers preassigns s name).occupiedVans) := by
  simp only [bulkNameStep]
  split
  next hf =>
    exact ⟨[], by simp, fun v hv => hv,
      fun v => Nat.le_trans (List.countP_le_length _) (by simp),
      fun a ha => absurd ha (by simp)⟩
  next drv hf =>
    split
    next hmem =>
      exact ⟨[], by simp, fun v hv => hv,
        fun v => Nat.le_trans (List.countP_le_length _) (by simp),
        fun a ha => absurd ha (by simp)⟩
    next hmem =>
      split
      next v0 hpa =>
        split
        next hocc =>
          refine ⟨[⟨s.nextId, dt, some v0, some drv.id, none⟩], rfl, ?_,
            fun v => Nat.le_trans (List.countP_le_length _) (by simp), ?_⟩
          · intro v hv
            exact List.mem_cons_of_mem _ hv
          · intro a ha v hav
            rw [List.mem_singleton] at ha
            subst ha
            cases hav
            exact ⟨hocc, List.mem_cons_self ..⟩
        next hocc =>
          refine ⟨[⟨s.nextId, dt, none, some drv.id, none⟩], rfl, fun v hv => hv,
            fun v => Nat.le_trans (List.countP_le_length _) (by simp), ?_⟩
          intro a ha v hav
          rw [List.mem_singleton] at ha
          subst ha
          cases hav
      next hpa =>
        refine ⟨[⟨s.nextId, dt, none, some drv.id, none⟩], rfl, fun v hv => hv,
          fun v => Nat.le_trans (List.countP_le_length _) (by simp), ?_⟩
        intro a ha v hav
        rw [List.mem_singleton] at ha
        subst ha
        cases hav

/-- C3: bulk reconciliation for a date.  A resolved candidate already
referenced on the date is counted skipped and adds no row (conjuncts one,
three, five); any other resolved candidate adds exactly one partial row and
is counted created, where the driver variants attach the preassigned van
exactly when it is absent from the batch-extended occupied-van set, marking
it occupied on attach (conjuncts two and six; conjunct four is the van-only
variant); consequently no van — in particular no shared preassigned van — is
attached twice in one batch, nor attached at all if occupied before the batch
(conjuncts seven and eight). -/
theorem bulk_batch_reconciliation :
    (∀ (dt : Nat) (ad : List Driver) (pas : List DriverVanPreassignment)
        (ei : List Nat) (s : BulkDriverState) (eid : String) (drv : Driver),
      ad.find? (fun d => d.employee_id == eid) = some drv → drv.id ∈ ei →
      bulkDriverStep dt ad pas ei s eid = { s with skipped := s.skipped + 1 }) ∧
    (∀ (dt : Nat) (ad : List Driver) (pas : List DriverVanPreassignment)
        (ei : List Nat) (s : BulkDriverState) (eid : String) (drv : Driver),
      ad.find? (fun d => d.employee_id == eid) = some drv → drv.id ∉ ei →
      ∃ vOpt, bulkDriverStep dt ad pas ei s eid =
        { rows := s.rows ++ [⟨s.nextId, dt, vOpt, some drv.id, none⟩],
          nextId := s.nextId + 1, created := s.created + 1,
          skipped := s.skipped,
          occupiedVans := match vOpt with
            | some v => v :: s.occupiedVans
            | none => s.occupiedVans } ∧
        vOpt = (match preassignedVan pas drv.id with
          | some v => if v ∈ s.occupiedVans then none else some v
          | none => none)) ∧
    (∀ (dt : Nat) (av : List Van) (ei : List Nat) (s : BulkVanState)
        (code : String) (van : Van),
      av.find? (fun v => v.code == code) = some van → van.id ∈ ei →
      bulkVanStep dt av ei s code = { s with skipped := s.skipped + 1 }) ∧
    (∀ (dt : Nat) (av : List Van) (ei : List Nat) (s : BulkVanState)
        (code : String) (van : Van),
      av.find? (fun v => v.code == code) = some van → van.id ∉ ei →
      bulkVanStep dt av ei s code =
        { s with rows := s.rows ++ [⟨s.nextId, dt, some van.id, none, none⟩],
                 nextId := s.nextId + 1, created := s.created + 1 }) ∧
    (∀ (dt : Nat) (ad : List Driver) (pas : List DriverVanPreassignment)
        (s : BulkNameState) (name : String) (drv : Driver),
      _fuzzy_match_driver name
        (ad.filter (fun d => !(s.matchedDrivers.contains d.id))) = some drv →
      drv.id ∈ s.existingIds →
      bulkNameStep dt ad pas s name =
        { s with matchedDrivers := drv.id :: s.matchedDrivers,
                 skipped := s.skipped + 1 }) ∧
    (∀ (dt : Nat) (ad : List Driver) (pas : List DriverVanPreassignment)
        (s : BulkNameState) (name : String) (drv : Driver),
      _fuzzy_match_driver name
        (ad.filter (fun d => !(s.matchedDrivers.contains d.id))) = some drv →
      drv.id ∉ s.existingIds →
      ∃ vOpt, bulkNameStep dt ad pas s name =
        { rows := s.rows ++ [⟨s.nextId, dt, vOpt, some drv.id, none⟩],
          nextId := s.nextId + 1, created := s.created + 1,
          skipped := s.skipped,
          occupiedVans := match vOpt with
            | some v => v :: s.occupiedVans
            | none => s.occupiedVans,
          existingIds := drv.id :: s.existingIds,
          matchedDrivers := drv.id :: s.matchedDrivers,
          notFoundNames := s.notFoundNames } ∧
        vOpt = (match preassignedVan pas drv.id with
          | some v => if v ∈ s.occupiedVans then none else some v
          | none => none)) ∧
    (∀ (db : DB) (dt : Nat) (eids : List String), ∃ news,
      (bulk_upload_drivers db dt eids).1.assignments = db.assignments ++ news ∧
      ∀ v, news.countP (fun a => a.van_id == some v) ≤ 1 ∧
        (v ∈ assignedVanIds db.assignments dt →
          news.countP (fun a => a.van_id == some v) = 0)) ∧
    (∀ (db : DB) (dt : Nat) (names : List String), ∃ news,
      (_bulk_assign_by_name db dt names).1.assignments = db.assignments ++ news ∧
      ∀ v, news.countP (fun a => a.van_id == some v) ≤ 1 ∧
        (v ∈ assignedVanIds db.assignments dt →
          news.countP (fun a => a.van_id == some v) = 0)) := by
  refine ⟨?_, ?_, ?_, ?_, ?_, ?_, ?_, ?_⟩
  · intro dt ad pas ei s eid drv hf hmem
    simp only [bulkDriverStep, hf]
    rw [if_pos hmem]
  · intro dt ad pas ei s eid drv hf hmem
    cases hpa : preassignedVan pas drv.id with
    | none =>
      refine ⟨none, ?_, rfl⟩
      simp only [bulkDriverStep, hf, hpa]
      rw [if_neg hmem]
    | some v0 =>
      by_cases hocc : v0 ∈ s.occupiedVans
      · refine ⟨none, ?_, by simp [hpa, hocc]⟩
        simp only [bulkDriverStep, hf, hpa]
        rw [if_neg hmem, if_neg (not_not_intro hocc)]
      · refine ⟨some v0, ?_, by simp [hpa, hocc]⟩
        simp only [bulkDriverStep, hf, hpa]
        rw [if_neg hmem, if_pos hocc]
  · intro dt av ei s code van hf hmem
    simp only [bulkVanStep, hf]
    rw [if_pos hmem]
  · intro dt av ei s code van hf hmem
    simp only [bulkVanStep, hf]
    rw [if_neg hmem]
  · intro dt ad pas s name drv hf hmem
    simp only [bulkNameStep, hf]
    rw [if_pos hmem]
  · intro dt ad pas s name drv hf hmem
    cases hpa : preassignedVan pas drv.id with
    | none =>
      refine ⟨none, ?_, rfl⟩
      simp only [bulkNameStep, hf, hpa]
      rw [if_neg hmem]
    | some v0 =>
      by_cases hocc : v0 ∈ s.occupiedVans
      · refine ⟨none, ?_, by simp [hpa, hocc]⟩
        simp only [bulkNameStep, hf, hpa]
        rw [if_neg hmem, if_neg (not_not_intro hocc)]
      · refine ⟨some v0, ?_, by simp [hpa, hocc]⟩
        simp only [bulkNameStep, hf, hpa]
        rw [if_neg hmem, if_pos hocc]
  · intro db dt eids
    obtain ⟨news, h1, h2, h3⟩ := foldl_no_double_van
      (bulkDriverStep dt (db.drivers.filter (fun d => d.active)) db.preassignments
        (assignedDriverIds db.assignments dt))
      BulkDriverState.rows BulkDriverState.occupiedVans
      (fun s e => bulkDriverStep_shape dt
        (db.drivers.filter (fun d => d.active)) db.preassignments
        (assignedDriverIds db.assignments dt) s e)
      eids ⟨db.assignments, db.nextId, 0, 0, assignedVanIds db.assignments dt⟩
    exact ⟨news, h1, h3⟩
  · intro db dt names
    obtain ⟨news, h1, h2, h3⟩ := foldl_no_double_van
      (bulkNameStep dt (db.drivers.filter (fun d => d.active)) db.preassignments)
      BulkNameState.rows BulkNameState.occupiedVans
      (fun s e => bulkNameStep_shape dt
        (db.drivers.filter (fun d => d.active)) db.preassignments s e)
      names ⟨db.assignments, db.nextId, 0, 0, assignedVanIds db.assignments dt,
        assignedDriverIds db.assignments dt, [], []⟩
    exact ⟨news, h1, h3⟩

/-- Witness for C3: each conjunct applied at a concrete batch. -/
theorem bulk_batch_reconciliation_witness :
    (bulkDriverStep 5 [⟨3, "E3", "Dana", true⟩] [⟨1, 3, 7⟩] [3]
        ⟨[], 10, 0, 0, []⟩ "E3" = ⟨[], 10, 0, 1, []⟩) ∧
    (∃ vOpt, bulkDriverStep 5 [⟨3, "E3", "Dana", true⟩] [⟨1, 3, 7⟩] []
        ⟨[], 10, 0, 0, []⟩ "E3" =
      { rows := [] ++ [⟨10, 5, vOpt, some 3, none⟩], nextId := 11, created := 1,
        skipped := 0,
        occupiedVans := match vOpt with
          | some v => v :: ([] : List Nat)
          | none => ([] : List Nat) } ∧
      vOpt = (match preassignedVan [⟨1, 3, 7⟩] 3 with
        | some v => if v ∈ ([] : List Nat) then none else some v
        | none => none)) ∧
    (bulkVanStep 5 [⟨7, "V7", none, none, true⟩] [7] ⟨[], 10, 0, 0⟩ "V7" =
      ⟨[], 10, 0, 1⟩) ∧
    (bulkVanStep 5 [⟨7, "V7", none, none, true⟩] [] ⟨[], 10, 0, 0⟩ "V7" =
      ⟨[] ++ [⟨10, 5, some 7, none, none⟩], 11, 1, 0⟩) ∧
    (bulkNameStep 5 [⟨3, "E3", "Dana", true⟩] [⟨1, 3, 7⟩]
        ⟨[], 10, 0, 0, [], [3], [], []⟩ "Dana" =
      ⟨[], 10, 0, 1, [], [3], [3], []⟩) ∧
    (∃ vOpt, bulkNameStep 5 [⟨3, "E3", "Dana", true⟩] [⟨1, 3, 7⟩]
        ⟨[], 10, 0, 0, [], [], [], []⟩ "Dana" =
      { rows := [] ++ [⟨10, 5, vOpt, some 3, none⟩], nextId := 11, created := 1,
        skipped := 0,
        occupiedVans := match vOpt with
          | some v => v :: ([] : List Nat)
          | none => ([] : List Nat),
        existingIds := [3], matchedDrivers := [3], notFoundNames := [] } ∧
      vOpt = (match preassignedVan [⟨1, 3, 7⟩] 3 with
        | some v => if v ∈ ([] : List Nat) then none else some v
        | none => none)) ∧
    (∃ news, (bulk_upload_drivers ⟨[], [⟨3, "E3", "Dana", true⟩], [],
        [⟨1, 3, 7⟩], 10⟩ 5 ["E3"]).1.assignments =
      (⟨[], [⟨3, "E3", "Dana", true⟩], [], [⟨1, 3, 7⟩], 10⟩ : DB).assignments
        ++ news ∧
      ∀ v, news.countP (fun a => a.van_id == some v) ≤ 1 ∧
        (v ∈ assignedVanIds
            (⟨[], [⟨3, "E3", "Dana", true⟩], [], [⟨1, 3, 7⟩], 10⟩ : DB).assignments
            5 →
          news.countP (fun a => a.van_id == some v) = 0)) ∧
    (∃ news, (_bulk_assign_by_name ⟨[], [⟨3, "E3", "Dana", true⟩], [],
        [⟨1, 3, 7⟩], 10⟩ 5 ["Dana"]).1.assignments =
      (⟨[], [⟨3, "E3", "Dana", true⟩], [], [⟨1, 3, 7⟩], 10⟩ : DB).assignments
        ++ news ∧
      ∀ v, news.countP (fun a => a.van_id == some v) ≤ 1 ∧
        (v ∈ assignedVanIds
            (⟨[], [⟨3, "E3", "Dana", true⟩], [], [⟨1, 3, 7⟩], 10⟩ : DB).assignments
            5 →
          news.countP (fun a => a.van_id == some v) = 0)) :=
  ⟨bulk_batch_reconciliation.1 5 [⟨3, "E3", "Dana", true⟩] [⟨1, 3, 7⟩] [3]
      ⟨[], 10, 0, 0, []⟩ "E3" ⟨3, "E3", "Dana", true⟩ rfl (by decide),
   bulk_batch_reconciliation.2.1 5 [⟨3, "E3", "Dana", true⟩] [⟨1, 3, 7⟩] []
      ⟨[], 10, 0, 0, []⟩ "E3" ⟨3, "E3", "Dana", true⟩ rfl (by decide),
   bulk_batch_reconciliation.2.2.1 5 [⟨7, "V7", none, none, true⟩] [7]
      ⟨[], 10, 0, 0⟩ "V7" ⟨7, "V7", none, none, true⟩ rfl (by decide),
   bulk_batch_reconciliation.2.2.2.1 5 [⟨7, "V7", none, none, true⟩] []
      ⟨[], 10, 0, 0⟩ "V7" ⟨7, "V7", none, none, true⟩ rfl (by decide),
   bulk_batch_reconciliation.2.2.2.2.1 5 [⟨3, "E3", "Dana", true⟩] [⟨1, 3, 7⟩]
      ⟨[], 10, 0, 0, [], [3], [], []⟩ "Dana" ⟨3, "E3", "Dana", true⟩ (by decide)
      (by decide),
   bulk_batch_reconciliation.2.2.2.2.2.1 5 [⟨3, "E3", "Dana", true⟩] [⟨1, 3, 7⟩]
      ⟨[], 10, 0, 0, [], [], [], []⟩ "Dana" ⟨3, "E3", "Dana", true⟩ (by decide)
      (by decide),
   bulk_batch_reconciliation.2.2.2.2.2.2.1
      ⟨[], [⟨3, "E3", "Dana", true⟩], [], [⟨1, 3, 7⟩], 10⟩ 5 ["E3"],
   bulk_batch_reconciliation.2.2.2.2.2.2.2
      ⟨[], [⟨3, "E3", "Dana", true⟩], [], [⟨1, 3, 7⟩], 10⟩ 5 ["Dana"]⟩

/-- The flush inside `pair_assignments` cannot fail when the paired van and
driver appear nowhere else on the date. -/
theorem pairRows_no_conflict (db : DB) (a b dt dD vV : Nat)
    (A B : DailyAssignment)
    (hAdr : A.driver_id = some dD)
    (hAdate : A.assignment_date = dt) (hBv : B.van_id = some vV)
    (hVonly : ∀ r ∈ db.assignments, r.assignment_date = dt →
      r.van_id = some vV → r.id = b)
    (hDonly : ∀ r ∈ db.assignments, r.assignment_date = dt →
      r.driver_id = some dD → r.id = a) :
    rowConflicts (pairRows db a b A B) (pairMerge A B) = false := by
  unfold rowConflicts pairRows
  rw [List.any_eq_false]
  intro x hx
  obtain ⟨r, hrf, hxr⟩ := List.mem_map.mp hx
  obtain ⟨hrmem, hrb⟩ := List.mem_filter.mp hrf
  by_cases hra : r.id = a
  · rw [if_pos (by simpa using hra)] at hxr
    subst hxr
    simp [pairMerge]
  · rw [if_neg (by simpa using hra)] at hxr
    subst hxr
    intro hpred
    simp only [pairMerge, Bool.and_eq_true, Bool.or_eq_true, beq_iff_eq,
      bne_iff_ne, ne_eq] at hpred
    obtain ⟨⟨hne, hdate⟩, hor⟩ := hpred
    rcases hor with ⟨hveq, -⟩ | ⟨hdeq, -⟩
    · have hrB : r.id = b := hVonly r hrmem (hdate.trans hAdate) (hveq.trans hBv)
      rw [hrB] at hrb
      simp at hrb
    · exact hra (hDonly r hrmem (hdate.trans hAdate) (hdeq.trans hAdr))

/-- Replacing under a key twice in a row keeps only the second replacement. -/
theorem map_map_replace (l : List DailyAssignment) (k : Nat)
    (m c : DailyAssignment) (hm : m.id = k) :
    (l.map (fun r => if r.id == k then m else r)).map
        (fun r => if r.id == k then c else r) =
      l.map (fun r => if r.id == k then c else r) := by
  rw [List.map_map]
  apply List.map_congr_left
  intro r hr
  by_cases h : r.id = k
  · simp [Function.comp, h, hm]
  · simp [Function.comp, h]

/-- Every row of the unpair pipeline applied after a pair is the fresh
van-only row, the cleared row, or an untouched row of the original store. -/
theorem mem_unpair_pipeline (db : DB) (a b : Nat) (A B C V x : DailyAssignment)
    (hAid : A.id = a)
    (hx : x ∈ (pairRows db a b A B).map
      (fun r => if r.id == a then C else r) ++ [V]) :
    x = V ∨ x = C ∨ (∃ r ∈ db.assignments, r.id ≠ a ∧ r.id ≠ b ∧ x = r) := by
  rcases List.mem_append.mp hx with hx | hx
  · obtain ⟨r1, hr1, hxr1⟩ := List.mem_map.mp hx
    unfold pairRows at hr1
    obtain ⟨r, hrf, hr1r⟩ := List.mem_map.mp hr1
    obtain ⟨hrmem, hrb⟩ := List.mem_filter.mp hrf
    by_cases hra : r.id = a
    · right; left
      rw [if_pos (by simpa using hra)] at hr1r
      subst hr1r
      rw [if_pos (by simp [pairMerge, hAid])] at hxr1
      exact hxr1.symm
    · rw [if_neg (by simpa using hra)] at hr1r
      subst hr1r
      rw [if_neg (by simpa using hra)] at hxr1
      right; right
      exact ⟨r, hrmem, hra, by simpa using hrb, hxr1.symm⟩
  · left
    simpa using hx

/-- C4: Pair on a driver-only row `A` (driver `dD`) and a van-only row `B`
(van `vV`) of the same date followed by Unpair on the surviving row yields
exactly one driver-only row for `dD` and exactly one van-only row for `vV` on
that date: the original id `a` is again driver-only with the same date and
driver (its notes are the pair concatenation, not reversed), and a fresh row
carries the same date and van.  Hypotheses `hVonly`/`hDonly`/`hFresh`/`hNodup`
are instances of the store's uniqueness and primary-key invariants. -/
theorem pair_unpair_round_trip (db : DB) (a b dt dD vV : Nat)
    (A B : DailyAssignment)
    (hA : db.assignments.find? (fun r => r.id == a) = some A)
    (hAdr : A.driver_id = some dD) (hAv : A.van_id = none)
    (hAdate : A.assignment_date = dt)
    (hB : db.assignments.find? (fun r => r.id == b) = some B)
    (hBv : B.van_id = some vV) (hBdr : B.driver_id = none)
    (hBdate : B.assignment_date = dt)
    (hVonly : ∀ r ∈ db.assignments, r.assignment_date = dt →
      r.van_id = some vV → r.id = b)
    (hDonly : ∀ r ∈ db.assignments, r.assignment_date = dt →
      r.driver_id = some dD → r.id = a)
    (hNodup : (db.assignments.map DailyAssignment.id).Nodup) :
    ∃ db1 merged db2,
      pair_assignments db a b = .ok (db1, merged) ∧
      unpair_assignment db1 a = .ok (db2, a, db.nextId) ∧
      (∃ r2, db2.assignments.find? (fun r => r.id == a) = some r2 ∧
        r2.assignment_date = dt ∧ r2.van_id = none ∧ r2.driver_id = some dD) ∧
      (⟨db.nextId, dt, some vV, none, none⟩ : DailyAssignment) ∈ db2.assignments ∧
      db2.assignments.countP (fun r => r.assignment_date == dt &&
        r.driver_id == some dD && r.van_id == none) = 1 ∧
      db2.assignments.countP (fun r => r.assignment_date == dt &&
        r.van_id == some vV && r.driver_id == none) = 1 := by
  have hAid : A.id = a := by have h := List.find?_some hA; simpa using h
  have hBid : B.id = b := by have h := List.find?_some hB; simpa using h
  have hAmem : A ∈ db.assignments := List.mem_of_find?_eq_some hA
  have hab : a ≠ b := by
    intro he
    rw [he] at hA
    rw [hA] at hB
    cases hB
    rw [hAv] at hBv
    cases hBv
  have hconfp := pairRows_no_conflict db a b dt dD vV A B hAdr hAdate hBv
    hVonly hDonly
  have hpair : pair_assignments db a b = .ok
      ({ db with assignments := pairRows db a b A B }, pairMerge A B) := by
    unfold pair_assignments
    simp only [hA, hB]
    rw [if_neg (by simp [hAdr]), if_neg (by simp [hAv]), if_neg (by simp [hBv]),
      if_neg (by simp [hBdr]), if_neg (by simp [hAdate, hBdate]),
      if_neg (by simp [hconfp])]
  have hMid : (pairMerge A B).id = a := by simp [pairMerge, hAid]
  have hMdr : (pairMerge A B).driver_id = some dD := by simp [pairMerge, hAdr]
  have hMv : (pairMerge A B).van_id = some vV := by simp [pairMerge, hBv]
  have hMdate : (pairMerge A B).assignment_date = dt := by simp [pairMerge, hAdate]
  have himp : ∀ x : DailyAssignment, (x.id == a) = true → (x.id != b) = true := by
    intro x hx
    have hxa : x.id = a := by simpa using hx
    simp [hxa, hab]
  have hfind1 : (pairRows db a b A B).find? (fun r => r.id == a) =
      some (pairMerge A B) := by
    unfold pairRows
    rw [find?_map_replace _ a (pairMerge A B) hMid]
    rw [find?_filter_of_imp db.assignments _ _ himp]
    rw [hA]
    rfl
  -- the unpair flush cannot fail either
  have hmemcases : ∀ x ∈ unpairRows { db with assignments := pairRows db a b A B }
      a (pairMerge A B),
      x = unpairVanOnly { db with assignments := pairRows db a b A B }
        (pairMerge A B) ∨
      x = unpairCleared (pairMerge A B) ∨
      (∃ r ∈ db.assignments, r.id ≠ a ∧ r.id ≠ b ∧ x = r) := by
    intro x hx
    exact mem_unpair_pipeline db a b A B (unpairCleared (pairMerge A B))
      (unpairVanOnly { db with assignments := pairRows db a b A B } (pairMerge A B))
      x hAid hx
  have hconfu1 : rowConflicts
      (unpairRows { db with assignments := pairRows db a b A B } a (pairMerge A B))
      (unpairVanOnly { db with assignments := pairRows db a b A B }
        (pairMerge A B)) = false := by
    unfold rowConflicts
    rw [List.any_eq_false]
    intro x hx
    rcases hmemcases x hx with hxv | hxc | ⟨r, hrmem, hra, hrb, hxr⟩
    · subst hxv
      simp [unpairVanOnly]
    · subst hxc
      intro hpred
      simp only [unpairCleared, unpairVanOnly, pairMerge, Bool.and_eq_true,
        Bool.or_eq_true, beq_iff_eq, bne_iff_ne, ne_eq] at hpred
      obtain ⟨-, hor⟩ := hpred
      rcases hor with ⟨hveq, -⟩ | ⟨-, hsome⟩
      · rw [hBv] at hveq
        cases hveq
      · simp at hsome
    · subst hxr
      intro hpred
      simp only [unpairVanOnly, pairMerge, Bool.and_eq_true, Bool.or_eq_true,
        beq_iff_eq, bne_iff_ne, ne_eq] at hpred
      obtain ⟨⟨-, hdate⟩, hor⟩ := hpred
      rcases hor with ⟨hveq, -⟩ | ⟨-, hsome⟩
      · exact hrb (hVonly x hrmem (hdate.trans hAdate) (hveq.trans hBv))
      · simp at hsome
  have hconfu2 : rowConflicts
      (unpairRows { db with assignments := pairRows db a b A B } a (pairMerge A B))
      (unpairCleared (pairMerge A B)) = false := by
    unfold rowConflicts
    rw [List.any_eq_false]
    intro x hx
    rcases hmemcases x hx with hxv | hxc | ⟨r, hrmem, hra, hrb, hxr⟩
    · subst hxv
      intro hpred
      simp only [unpairCleared, unpairVanOnly, pairMerge, Bool.and_eq_true,
        Bool.or_eq_true, beq_iff_eq, bne_iff_ne, ne_eq] at hpred
      obtain ⟨-, hor⟩ := hpred
      rcases hor with ⟨-, hsome⟩ | ⟨hdeq, -⟩
      · simp at hsome
      · rw [hAdr] at hdeq
        cases hdeq
    · subst hxc
      simp [unpairCleared, pairMerge]
    · subst hxr
      intro hpred
      simp only [unpairCleared, pairMerge, Bool.and_eq_true, Bool.or_eq_true,
        beq_iff_eq, bne_iff_ne, ne_eq] at hpred
      obtain ⟨⟨hne, hdate⟩, hor⟩ := hpred
      rcases hor with ⟨-, hsome⟩ | ⟨hdeq, -⟩
      · simp at hsome
      · exact hra (hDonly x hrmem (hdate.trans hAdate) (hdeq.trans hAdr))
  have hunpair : unpair_assignment
      { db with assignments := pairRows db a b A B } a = .ok
      ({ db with
          assignments := unpairRows { db with assignments := pairRows db a b A B }
            a (pairMerge A B),
          nextId := db.nextId + 1 }, a, db.nextId) := by
    unfold unpair_assignment
    simp only [hfind1]
    rw [if_neg (by simp [hMv, hMdr])]
    rw [if_neg (by simp [hconfu1, hconfu2])]
  refine ⟨_, _, _, hpair, hunpair, ?_, ?_, ?_, ?_⟩
  · -- the original id is driver-only again
    refine ⟨unpairCleared (pairMerge A B), ?_, by simp [unpairCleared, hMdate],
      by simp [unpairCleared], by simp [unpairCleared, hMdr]⟩
    show (unpairRows { db with assignments := pairRows db a b A B } a
      (pairMerge A B)).find? (fun r => r.id == a) = some (unpairCleared (pairMerge A B))
    unfold unpairRows
    rw [List.find?_append]
    have : ({ db with assignments := pairRows db a b A B } : DB).assignments =
      pairRows db a b A B := rfl
    rw [this]
    rw [find?_map_replace (pairRows db a b A B) a (unpairCleared (pairMerge A B))
      (by simp [unpairCleared, hMid])]
    rw [hfind1]
    rfl
  · -- the fresh van-only row is present
    have hVO : unpairVanOnly { db with assignments := pairRows db a b A B }
        (pairMerge A B) = ⟨db.nextId, dt, some vV, none, none⟩ := by
      simp [unpairVanOnly, hMdate, hMv]
    show (⟨db.nextId, dt, some vV, none, none⟩ : DailyAssignment) ∈
      unpairRows { db with assignments := pairRows db a b A B } a (pairMerge A B)
    unfold unpairRows
    rw [← hVO]
    exact List.mem_append_right _ (List.mem_singleton_self _)
  · -- exactly one driver-only row for (dt, dD)
    show (unpairRows { db with assignments := pairRows db a b A B } a
      (pairMerge A B)).countP (fun r => r.assignment_date == dt &&
        r.driver_id == some dD && r.van_id == none) = 1
    unfold unpairRows
    have hproj : ({ db with assignments := pairRows db a b A B } : DB).assignments =
      pairRows db a b A B := rfl
    rw [hproj]
    have hmm2 : (pairRows db a b A B).map
        (fun r => if r.id == a then unpairCleared (pairMerge A B) else r) =
        (db.assignments.filter (fun r => r.id != b)).map
          (fun r => if r.id == a then unpairCleared (pairMerge A B) else r) := by
      unfold pairRows
      exact map_map_replace _ a _ _ hMid
    rw [hmm2, List.countP_append, countP_filter_map_replace]
    have hone : db.assignments.countP (fun r => !(r.id == b) &&
        (if r.id == a then
          ((fun r : DailyAssignment => r.assignment_date == dt &&
            r.driver_id == some dD && r.van_id == none)
              (unpairCleared (pairMerge A B)))
          else r.assignment_date == dt && r.driver_id == some dD &&
            r.van_id == none)) =
        db.assignments.countP (fun r => r.id == A.id) := by
      apply List.countP_congr
      intro r hr
      by_cases hra : r.id = a
      · rw [if_pos (by simpa using hra)]
        constructor
        · intro _
          simp [hra, hAid]
        · intro _
          simp only [Bool.and_eq_true]
          refine ⟨by simp [hra, hab], ?_⟩
          simp [unpairCleared, pairMerge, hAdate, hAdr]
      · rw [if_neg (by simpa using hra)]
        constructor
        · intro hls
          simp only [Bool.and_eq_true, beq_iff_eq] at hls
          obtain ⟨hnotb, hrest⟩ := hls
          obtain ⟨⟨hdate, hdrv⟩, hvan⟩ := hrest
          exact absurd (hDonly r hr hdate hdrv) hra
        · intro hrs
          have h' : r.id = A.id := by simpa using hrs
          exact absurd (h'.trans hAid) hra
    rw [hone, countP_key_eq_one db.assignments A hAmem hNodup]
    have hVOz : ((fun r : DailyAssignment => r.assignment_date == dt &&
        r.driver_id == some dD && r.van_id == none)
          (unpairVanOnly { db with assignments := pairRows db a b A B }
            (pairMerge A B))) = false := by
      simp [unpairVanOnly]
    simp [List.countP_cons, hVOz]
  · -- exactly one van-only row for (dt, vV)
    show (unpairRows { db with assignments := pairRows db a b A B } a
      (pairMerge A B)).countP (fun r => r.assignment_date == dt &&
        r.van_id == some vV && r.driver_id == none) = 1
    unfold unpairRows
    have hproj : ({ db with assignments := pairRows db a b A B } : DB).assignments =
      pairRows db a b A B := rfl
    rw [hproj]
    have hmm2 : (pairRows db a b A B).map
        (fun r => if r.id == a then unpairCleared (pairMerge A B) else r) =
        (db.assignments.filter (fun r => r.id != b)).map
          (fun r => if r.id == a then unpairCleared (pairMerge A B) else r) := by
      unfold pairRows
      exact map_map_replace _ a _ _ hMid
    rw [hmm2, List.countP_append, countP_filter_map_replace]
    have hzero : db.assignments.countP (fun r => !(r.id == b) &&
        (if r.id == a then
          ((fun r : DailyAssignment => r.assignment_date == dt &&
            r.van_id == some vV && r.driver_id == none)
              (unpairCleared (pairMerge A B)))
          else r.assignment_date == dt && r.van_id == some vV &&
            r.driver_id == none)) = 0 := by
      rw [List.countP_eq_zero]
      intro r hr hpred
      by_cases hra : r.id = a
      · rw [if_pos (by simpa using hra)] at hpred
        simp [unpairCleared] at hpred
      · rw [if_neg (by simpa using hra)] at hpred
        simp only [Bool.and_eq_true, beq_iff_eq] at hpred
        obtain ⟨hnotb, hrest⟩ := hpred
        obtain ⟨⟨hdate, hvan⟩, hdrv⟩ := hrest
        have hrb2 : r.id ≠ b := by simpa using hnotb
        exact hrb2 (hVonly r hr hdate hvan)
    rw [hzero]
    have hVOone : ((fun r : DailyAssignment => r.assignment_date == dt &&
        r.van_id == some vV && r.driver_id == none)
          (unpairVanOnly { db with assignments := pairRows db a b A B }
            (pairMerge A B))) = true := by
      simp [unpairVanOnly, hMdate, hMv]
    simp [List.countP_cons, hVOone]

/-- Witness for C4 at a concrete store: rows (driver 3 only) and (van 9 only)
on date 4, paired and unpaired again. -/
theorem pair_unpair_round_trip_witness :
    ∃ db1 merged db2,
      pair_assignments ⟨[], [], [⟨1, 4, none, some 3, some "x"⟩,
        ⟨2, 4, some 9, none, some "y"⟩], [], 5⟩ 1 2 = .ok (db1, merged) ∧
      unpair_assignment db1 1 = .ok (db2, 1, 5) ∧
      (∃ r2, db2.assignments.find? (fun r => r.id == 1) = some r2 ∧
        r2.assignment_date = 4 ∧ r2.van_id = none ∧ r2.driver_id = some 3) ∧
      (⟨5, 4, some 9, none, none⟩ : DailyAssignment) ∈ db2.assignments ∧
      db2.assignments.countP (fun r => r.assignment_date == 4 &&
        r.driver_id == some 3 && r.van_id == none) = 1 ∧
      db2.assignments.countP (fun r => r.assignment_date == 4 &&
        r.van_id == some 9 && r.driver_id == none) = 1 :=
  pair_unpair_round_trip
    ⟨[], [], [⟨1, 4, none, some 3, some "x"⟩, ⟨2, 4, some 9, none, some "y"⟩], [], 5⟩
    1 2 4 3 9 ⟨1, 4, none, some 3, some "x"⟩ ⟨2, 4, some 9, none, some "y"⟩
    rfl rfl rfl rfl rfl rfl rfl rfl (by decide) (by decide) (by decide)

end VanList
